import Mathlib

/-!
Verification development for the NexaWeb PYXM template engine
(`nexaweb/engine/pyxm_parser.py`, `nexaweb/engine/pyxm_compiler.py`,
`nexaweb/engine/template.py`).

The lexer, parser, compiler metadata pass and template cache are embedded
shallowly.  Python strings are modelled as `List Char` (wrapped in `String`
at the interfaces), Python `dict`s as insertion-ordered association lists,
and the `while` loops of the lexer/parser either as structurally recursive
scans (where the loop provably consumes input) or as fuel-indexed loops
(where the original code can in fact diverge).  `fuelOut`/`none` results
mean "the modelled loop did not finish within the given fuel"; genuine
divergence of the Python code is proved as `∀ fuel, … = fuelOut`.
-/

namespace NexaWeb

/-! ## Basic character and string helpers -/

/-- The character `\x7b` (opening curly brace). -/
def lbraceC : Char := Char.ofNat 123

/-- The character `\x7d` (closing curly brace). -/
def rbraceC : Char := Char.ofNat 125

/-- The percent character. -/
def pctC : Char := Char.ofNat 37

/-- The number-sign character. -/
def hashC : Char := Char.ofNat 35

/-- The single-quote character (used when assembling Python source text). -/
def sqC : Char := Char.ofNat 39

/-- The double-quote character. -/
def dqC : Char := Char.ofNat 34

/-- Python `\s` whitespace characters (re module, ASCII subset). -/
def isPyWs (c : Char) : Bool :=
  c = ' ' || c = Char.ofNat 9 || c = Char.ofNat 10 || c = Char.ofNat 13 ||
  c = Char.ofNat 11 || c = Char.ofNat 12

/-- `str.strip()` on a character list: drop whitespace from both ends. -/
def pyStripL (cs : List Char) : List Char :=
  ((cs.dropWhile isPyWs).reverse.dropWhile isPyWs).reverse

/-- `str.strip()`. -/
def pyStrip (s : String) : String := ⟨pyStripL s.data⟩

/-- Does `pre` occur at the head of `l`? (`str.startswith` at one position). -/
def hasPrefixL : List Char → List Char → Bool
  | [], _ => true
  | _ :: _, [] => false
  | p :: ps, c :: cs => p = c && hasPrefixL ps cs

/-- Python `sub in s` on character lists. -/
def containsSubL (sub : List Char) : List Char → Bool
  | [] => hasPrefixL sub []
  | c :: cs => hasPrefixL sub (c :: cs) || containsSubL sub cs

/-- Python `sub in s`. -/
def strContains (s sub : String) : Bool := containsSubL sub.data s.data

/-- Python `s.startswith(pre)`. -/
def pyStartsWith (s pre : String) : Bool := hasPrefixL pre.data s.data

/-- Python `s.endswith(suf)`. -/
def pyEndsWith (s suf : String) : Bool := hasPrefixL suf.data.reverse s.data.reverse

/-- Does the two-character sequence `a b` occur anywhere in the list?
Mirrors the lexer's repeated `source[pos:pos+2] == ".."` lookahead. -/
def hasPair (a b : Char) : List Char → Bool
  | c₁ :: c₂ :: cs => (c₁ = a && c₂ = b) || hasPair a b (c₂ :: cs)
  | _ => false

/-- Python `s.split(sep)` for a one-character separator (keeps empty parts). -/
def splitOnCharAux (sep : Char) : List Char → List Char → List (List Char)
  | [], cur => [cur.reverse]
  | c :: cs, cur =>
    if c = sep then cur.reverse :: splitOnCharAux sep cs []
    else splitOnCharAux sep cs (c :: cur)

/-- Python `s.split(sep)` for a one-character separator. -/
def splitOnChar (sep : Char) (s : String) : List String :=
  (splitOnCharAux sep s.data []).map (fun cs => ⟨cs⟩)

/-- Python `s.split()` (split on whitespace runs, dropping empty parts). -/
def pySplitWsAux : List Char → List Char → List (List Char)
  | [], cur => if cur.isEmpty then [] else [cur.reverse]
  | c :: cs, cur =>
    if isPyWs c then
      if cur.isEmpty then pySplitWsAux cs [] else cur.reverse :: pySplitWsAux cs []
    else pySplitWsAux cs (c :: cur)

/-- Python `s.split()`. -/
def pySplitWs (s : String) : List String :=
  (pySplitWsAux s.data []).map (fun cs => ⟨cs⟩)

/-- Python `s.lower()` (ASCII). -/
def pyLower (s : String) : String := ⟨s.data.map Char.toLower⟩

/-! ## `html.escape` (with `quote=True`), as used by the compiler -/

/-- Escape one character exactly as `html.escape(s, quote=True)` rewrites it. -/
def htmlEscapeChar (c : Char) : List Char :=
  if c = '&' then "&amp;".data
  else if c = '<' then "&lt;".data
  else if c = '>' then "&gt;".data
  else if c = dqC then "&quot;".data
  else if c = sqC then "&#x27;".data
  else [c]

/-- `html.escape(s, quote=True)`: the successive `str.replace` passes of the
library function act independently on each source character, so the
character-wise map below computes the same string. -/
def htmlEscape (s : String) : String := ⟨s.data.flatMap htmlEscapeChar⟩

/-! ## Model of `hashlib.md5(...).hexdigest()`

`hashlib` is an external library, not part of this repository.  It is
modelled by an unspecified-but-fixed pure function producing 32 lowercase
hexadecimal characters; the theorems below rely only on its determinism
and on the length of its output, both true of the real `md5` hexdigest. -/

/-- One lowercase hexadecimal digit. -/
def hexDigit (n : Nat) : Char :=
  if n < 10 then Char.ofNat (48 + n) else Char.ofNat (87 + n % 16)

/-- A fixed-width 32-hex-character rendering of a number below `2 ^ 128`. -/
def toHex32 (n : Nat) : List Char :=
  ((List.range 32).map (fun i => hexDigit (n / 16 ^ (31 - i) % 16)))

/-- Model of `hashlib.md5(s.encode()).hexdigest()`: a deterministic digest
of the input characters, rendered as 32 hex characters. -/
def md5hex (s : String) : String :=
  ⟨toHex32 (s.data.foldl (fun h c => (h * 1099511628211 + c.toNat + 1) % 2 ^ 128) 14695981039346656037)⟩

/-! ## Python-`dict` model: insertion-ordered association lists -/

/-- Is `k` a key of the dict? -/
def dictContains {V : Type} (d : List (String × V)) (k : String) : Bool :=
  d.any (fun p => p.1 = k)

/-- `d[k]` (first binding; keys are unique in a well-formed dict). -/
def dictGet {V : Type} (d : List (String × V)) (k : String) : Option V :=
  (d.find? (fun p => p.1 = k)).map (fun p => p.2)

/-- `d[k] = v`: replace in place if present, else append (Python insertion
order). -/
def dictSet {V : Type} (d : List (String × V)) (k : String) (v : V) : List (String × V) :=
  if dictContains d k then d.map (fun p => if p.1 = k then (k, v) else p)
  else d ++ [(k, v)]

/-- `del d[k]`. -/
def dictDel {V : Type} (d : List (String × V)) (k : String) : List (String × V) :=
  d.filter (fun p => ¬ p.1 = k)

/-- `d.update(e)`: insert every binding of `e` in order. -/
def dictUpdate {V : Type} (d e : List (String × V)) : List (String × V) :=
  e.foldl (fun acc p => dictSet acc p.1 p.2) d

/-! ## Lexer (`PyxmLexer` in `pyxm_parser.py`)

The lexer state is `(remaining characters, line/column)`; the original
tracks an index `pos` into the source, which corresponds to the length of
the consumed prefix.  Scanning loops that provably consume input are
structural recursions; the top-level `tokenize` loop is fuel-indexed
because the original can diverge (its tag branch never advances past
`<`). -/

/-- Token types of the PYXM lexer. -/
inductive TokenType where
  | TEXT | WHITESPACE | NEWLINE
  | TAG_OPEN | TAG_CLOSE | TAG_SELF_CLOSE | TAG_END_OPEN | TAG_NAME
  | ATTR_NAME | ATTR_VALUE | ATTR_EQUALS
  | EXPR_OPEN | EXPR_CLOSE | EXPR_CONTENT
  | STMT_OPEN | STMT_CLOSE | STMT_CONTENT
  | COMMENT_OPEN | COMMENT_CLOSE | COMMENT_CONTENT
  | PY_BLOCK_OPEN | PY_BLOCK_CLOSE | PY_CONTENT
  | EVENT_BIND | ATTR_BIND | REF_BIND
  | EOF
deriving DecidableEq

/-- A lexer token (`Token` dataclass). -/
structure Token where
  type : TokenType
  value : String
  line : Nat
  column : Nat
deriving DecidableEq

/-- 1-indexed line/column position. -/
structure LexPos where
  line : Nat
  col : Nat
deriving DecidableEq

/-- `PyxmLexer._advance` over one character. -/
def advChar (p : LexPos) (c : Char) : LexPos :=
  if c = '\n' then ⟨p.line + 1, 1⟩ else ⟨p.line, p.col + 1⟩

/-- `PyxmLexer._advance(count)` over a list of consumed characters. -/
def advList (p : LexPos) (cs : List Char) : LexPos := cs.foldl advChar p

/-- The scanning loop of `_tokenize_expression`: consume until the matching
`\x7d\x7d` at nesting depth ≤ 1 (which is left unconsumed), tracking nested
`\x7b\x7b`/`\x7d\x7d` pairs.  Returns (consumed content, rest, position). -/
def scanExpr : Nat → List Char → LexPos → (List Char × List Char × LexPos)
  | _, [], p => ([], [], p)
  | _, [c], p => ([c], [], advChar p c)
  | depth, c₁ :: c₂ :: cs, p =>
    if c₁ = lbraceC ∧ c₂ = lbraceC then
      let r := scanExpr (depth + 1) cs (advChar (advChar p c₁) c₂)
      (c₁ :: c₂ :: r.1, r.2.1, r.2.2)
    else if c₁ = rbraceC ∧ c₂ = rbraceC then
      if depth ≤ 1 then ([], c₁ :: c₂ :: cs, p)
      else
        let r := scanExpr (depth - 1) cs (advChar (advChar p c₁) c₂)
        (c₁ :: c₂ :: r.1, r.2.1, r.2.2)
    else
      let r := scanExpr depth (c₂ :: cs) (advChar p c₁)
      (c₁ :: r.1, r.2.1, r.2.2)

/-- The scanning loops of `_tokenize_statement` / `_tokenize_comment`:
consume until the two-character closer `a b` (left unconsumed) or
end-of-input. -/
def scanUntilPair (a b : Char) : List Char → LexPos → (List Char × List Char × LexPos)
  | [], p => ([], [], p)
  | [c], p => ([c], [], advChar p c)
  | c₁ :: c₂ :: cs, p =>
    if c₁ = a ∧ c₂ = b then ([], c₁ :: c₂ :: cs, p)
    else
      let r := scanUntilPair a b (c₂ :: cs) (advChar p c₁)
      (c₁ :: r.1, r.2.1, r.2.2)

/-- `_tokenize_text`'s scanning loop: consume until `<` or one of the
two-character openers. -/
def scanText : List Char → LexPos → (List Char × List Char × LexPos)
  | [], p => ([], [], p)
  | c :: cs, p =>
    if c = '<' || hasPrefixL [lbraceC, lbraceC] (c :: cs) ||
        hasPrefixL [lbraceC, pctC] (c :: cs) || hasPrefixL [lbraceC, hashC] (c :: cs) then
      ([], c :: cs, p)
    else
      let r := scanText cs (advChar p c)
      (c :: r.1, r.2.1, r.2.2)

/-- First character of the `tag_name` pattern `[a-zA-Z_][a-zA-Z0-9_-]*`. -/
def isTagNameStart (c : Char) : Bool := c.isAlpha || c = '_'

/-- Continuation characters of the `tag_name` pattern. -/
def isTagNameChar (c : Char) : Bool := c.isAlpha || c.isDigit || c = '_' || c = '-'

/-- Match the `tag_name` pattern at the head; returns (match, rest). -/
def matchTagName : List Char → Option (List Char × List Char)
  | [] => none
  | c :: cs =>
    if isTagNameStart c then some (c :: cs.takeWhile isTagNameChar, cs.dropWhile isTagNameChar)
    else none

/-- Continuation characters of the `event_bind`/`ref_bind` name patterns
`[a-zA-Z0-9_]`. -/
def isBindChar (c : Char) : Bool := c.isAlpha || c.isDigit || c = '_'

/-- Continuation characters of the `attr_bind` name pattern
`[a-zA-Z0-9_-]`. -/
def isAttrBindChar (c : Char) : Bool := c.isAlpha || c.isDigit || c = '_' || c = '-'

/-- Match `mark` followed by `[a-zA-Z]` then `good*`; returns the captured
name (without the mark) and the rest. -/
def matchBindAfter (mark : Char) (good : Char → Bool) : List Char → Option (List Char × List Char)
  | m :: c :: rest =>
    if m = mark ∧ c.isAlpha then some (c :: rest.takeWhile good, rest.dropWhile good)
    else none
  | _ => none

/-- Match a quoted attribute value `q[^q]*q`; returns the inner text and
the rest. -/
def matchQuoted (q : Char) : List Char → Option (List Char × List Char)
  | [] => none
  | c :: rest =>
    if c = q then
      match rest.dropWhile (fun x => ¬ x = q) with
      | c₂ :: rest₂ =>
        if c₂ = q then some (rest.takeWhile (fun x => ¬ x = q), rest₂) else none
      | [] => none
    else none

/-- Match the `py_open` pattern `<py\s*>` (case-insensitive); returns the
matched text and the rest. -/
def matchPyOpen : List Char → Option (List Char × List Char)
  | '<' :: c₁ :: c₂ :: rest =>
    if c₁.toLower = 'p' ∧ c₂.toLower = 'y' then
      match rest.dropWhile isPyWs with
      | '>' :: r => some ('<' :: c₁ :: c₂ :: (rest.takeWhile isPyWs ++ ['>']), r)
      | _ => none
    else none
  | _ => none

/-- Match the `py_close` pattern `</py\s*>` (case-insensitive). -/
def matchPyClose : List Char → Option (List Char × List Char)
  | '<' :: '/' :: c₁ :: c₂ :: rest =>
    if c₁.toLower = 'p' ∧ c₂.toLower = 'y' then
      match rest.dropWhile isPyWs with
      | '>' :: r => some ('<' :: '/' :: c₁ :: c₂ :: (rest.takeWhile isPyWs ++ ['>']), r)
      | _ => none
    else none
  | _ => none

/-- `_tokenize_python_block`'s content loop: consume until `py_close`
matches at the current position, or end-of-input. -/
def scanPyContent : List Char → LexPos → (List Char × List Char × LexPos)
  | [], p => ([], [], p)
  | c :: cs, p =>
    if (matchPyClose (c :: cs)).isSome then ([], c :: cs, p)
    else
      let r := scanPyContent cs (advChar p c)
      (c :: r.1, r.2.1, r.2.2)

/-- `_tokenize_attr_value`: optional whitespace then a double- or
single-quoted value; the token carries the value without its quotes. -/
def tokenizeAttrValue (cs : List Char) (p : LexPos) : (List Token × List Char × LexPos) :=
  let ws := cs.takeWhile isPyWs
  let cs₁ := cs.dropWhile isPyWs
  let p₁ := advList p ws
  match matchQuoted dqC cs₁ with
  | some (inner, rem) =>
    let p₂ := advList p₁ (dqC :: inner ++ [dqC])
    ([⟨.ATTR_VALUE, ⟨inner⟩, p₂.line, p₂.col⟩], rem, p₂)
  | none =>
    match matchQuoted sqC cs₁ with
    | some (inner, rem) =>
      let p₂ := advList p₁ (sqC :: inner ++ [sqC])
      ([⟨.ATTR_VALUE, ⟨inner⟩, p₂.line, p₂.col⟩], rem, p₂)
    | none => ([], cs₁, p₁)

/-- The attribute loop of `_tokenize_tag`.  Every iteration that continues
consumes at least one character, so the fuel `cs.length + 1` supplied by
`tokenizeTag` is never exhausted; the fuel-0 equation is unreachable. -/
def lexAttrLoop : Nat → List Char → LexPos → List Token → (List Token × List Char × LexPos)
  | 0, cs, p, acc => (acc, cs, p)
  | fuel + 1, cs, p, acc =>
    let ws := cs.takeWhile isPyWs
    let cs₁ := cs.dropWhile isPyWs
    let p₁ := advList p ws
    if cs₁ = [] then (acc, cs₁, p₁)
    else if hasPrefixL ['/', '>'] cs₁ then
      (acc ++ [⟨.TAG_SELF_CLOSE, "/>", p₁.line, p₁.col⟩], cs₁.drop 2, advList p₁ (cs₁.take 2))
    else if hasPrefixL ['>'] cs₁ then
      (acc ++ [⟨.TAG_CLOSE, ">", p₁.line, p₁.col⟩], cs₁.drop 1, advList p₁ (cs₁.take 1))
    else
      match matchBindAfter '@' isBindChar cs₁ with
      | some (name, rem) =>
        let pn := advList p₁ (cs₁.take (1 + name.length))
        let r := tokenizeAttrValue rem pn
        lexAttrLoop fuel r.2.1 r.2.2 (acc ++ [⟨.EVENT_BIND, ⟨name⟩, p₁.line, p₁.col⟩] ++ r.1)
      | none =>
      match matchBindAfter ':' isAttrBindChar cs₁ with
      | some (name, rem) =>
        let pn := advList p₁ (cs₁.take (1 + name.length))
        let r := tokenizeAttrValue rem pn
        lexAttrLoop fuel r.2.1 r.2.2 (acc ++ [⟨.ATTR_BIND, ⟨name⟩, p₁.line, p₁.col⟩] ++ r.1)
      | none =>
      match matchBindAfter '#' isBindChar cs₁ with
      | some (name, rem) =>
        let pn := advList p₁ (cs₁.take (1 + name.length))
        lexAttrLoop fuel rem pn (acc ++ [⟨.REF_BIND, ⟨name⟩, p₁.line, p₁.col⟩])
      | none =>
      match matchTagName cs₁ with
      | some (name, rem) =>
        let pn := advList p₁ name
        let nameTok : Token := ⟨.ATTR_NAME, ⟨name⟩, pn.line, pn.col⟩
        let ws₂ := rem.takeWhile isPyWs
        let rem₂ := rem.dropWhile isPyWs
        let p₂ := advList pn ws₂
        if hasPrefixL ['='] rem₂ then
          let r := tokenizeAttrValue (rem₂.drop 1) (advList p₂ ['='])
          lexAttrLoop fuel r.2.1 r.2.2 (acc ++ [nameTok, ⟨.ATTR_EQUALS, "=", p₂.line, p₂.col⟩] ++ r.1)
        else lexAttrLoop fuel rem₂ p₂ (acc ++ [nameTok])
      | none => (acc, cs₁, p₁)

/-- `_tokenize_tag`.  The caller (`_next_token`) does not advance past the
opening `<` or `</` before calling, so this function receives the rest of
the source still carrying that character — as in the original. -/
def tokenizeTag (cs : List Char) (p : LexPos) : (List Token × List Char × LexPos) :=
  let ws := cs.takeWhile isPyWs
  let cs₁ := cs.dropWhile isPyWs
  let p₁ := advList p ws
  match matchTagName cs₁ with
  | some (name, rem) =>
    let pn := advList p₁ name
    let r := lexAttrLoop (rem.length + 1) rem pn []
    ([⟨.TAG_NAME, ⟨name⟩, pn.line, pn.col⟩] ++ r.1, r.2.1, r.2.2)
  | none =>
    let r := lexAttrLoop (cs₁.length + 1) cs₁ p₁ []
    (r.1, r.2.1, r.2.2)

/-- `_tokenize_expression`.  Emits a synthetic `EXPR_CLOSE` token even when
the input ends before `\x7d\x7d` (the trailing `advance(2)` is a no-op at
end-of-input). -/
def tokenizeExpressionTok (cs : List Char) (p : LexPos) : (List Token × List Char × LexPos) :=
  let tOpen : Token := ⟨.EXPR_OPEN, "\x7b\x7b", p.line, p.col⟩
  let p₁ := advList p (cs.take 2)
  let r := scanExpr 1 (cs.drop 2) p₁
  let p₂ := r.2.2
  let tContent : Token := ⟨.EXPR_CONTENT, ⟨pyStripL r.1⟩, p₂.line, p₂.col⟩
  let tClose : Token := ⟨.EXPR_CLOSE, "\x7d\x7d", p₂.line, p₂.col⟩
  ([tOpen, tContent, tClose], r.2.1.drop 2, advList p₂ (r.2.1.take 2))

/-- `_tokenize_statement` (content is stripped; synthetic close at EOF). -/
def tokenizeStatementTok (cs : List Char) (p : LexPos) : (List Token × List Char × LexPos) :=
  let tOpen : Token := ⟨.STMT_OPEN, "\x7b%", p.line, p.col⟩
  let p₁ := advList p (cs.take 2)
  let r := scanUntilPair pctC rbraceC (cs.drop 2) p₁
  let p₂ := r.2.2
  let tContent : Token := ⟨.STMT_CONTENT, ⟨pyStripL r.1⟩, p₂.line, p₂.col⟩
  let tClose : Token := ⟨.STMT_CLOSE, "%\x7d", p₂.line, p₂.col⟩
  ([tOpen, tContent, tClose], r.2.1.drop 2, advList p₂ (r.2.1.take 2))

/-- `_tokenize_comment` (content is kept verbatim, not stripped). -/
def tokenizeCommentTok (cs : List Char) (p : LexPos) : (List Token × List Char × LexPos) :=
  let tOpen : Token := ⟨.COMMENT_OPEN, "\x7b#", p.line, p.col⟩
  let p₁ := advList p (cs.take 2)
  let r := scanUntilPair hashC rbraceC (cs.drop 2) p₁
  let p₂ := r.2.2
  let tContent : Token := ⟨.COMMENT_CONTENT, ⟨r.1⟩, p₂.line, p₂.col⟩
  let tClose : Token := ⟨.COMMENT_CLOSE, "#\x7d", p₂.line, p₂.col⟩
  ([tOpen, tContent, tClose], r.2.1.drop 2, advList p₂ (r.2.1.take 2))

/-- `_tokenize_python_block`.  Unlike the delimiter tokenizers, no
`PY_BLOCK_CLOSE` token is emitted when the closer is missing. -/
def tokenizePyBlockTok (cs : List Char) (p : LexPos) : (List Token × List Char × LexPos) :=
  match matchPyOpen cs with
  | some (txt, rem) =>
    let tOpen : Token := ⟨.PY_BLOCK_OPEN, ⟨txt⟩, p.line, p.col⟩
    let r := scanPyContent rem (advList p txt)
    let p₂ := r.2.2
    let tContent : Token := ⟨.PY_CONTENT, ⟨r.1⟩, p₂.line, p₂.col⟩
    match matchPyClose r.2.1 with
    | some (txt₂, rem₂) =>
      ([tOpen, tContent, ⟨.PY_BLOCK_CLOSE, ⟨txt₂⟩, p₂.line, p₂.col⟩], rem₂, advList p₂ txt₂)
    | none => ([tOpen, tContent], r.2.1, p₂)
  | none => ([], cs, p)

/-- `_next_token`: dispatch on the lookahead.  The `tag_end_open` and
`tag_open` branches add their token but do not advance before calling
`_tokenize_tag`, exactly as the original does. -/
def lexNextToken (cs : List Char) (p : LexPos) : (List Token × List Char × LexPos) :=
  if hasPrefixL [lbraceC, lbraceC] cs then tokenizeExpressionTok cs p
  else if hasPrefixL [lbraceC, pctC] cs then tokenizeStatementTok cs p
  else if hasPrefixL [lbraceC, hashC] cs then tokenizeCommentTok cs p
  else if (matchPyOpen cs).isSome then tokenizePyBlockTok cs p
  else if hasPrefixL ['<', '/'] cs then
    let r := tokenizeTag cs p
    (⟨.TAG_END_OPEN, "</", p.line, p.col⟩ :: r.1, r.2.1, r.2.2)
  else if hasPrefixL ['<'] cs then
    let r := tokenizeTag cs p
    (⟨.TAG_OPEN, "<", p.line, p.col⟩ :: r.1, r.2.1, r.2.2)
  else
    let r := scanText cs p
    (if r.1.isEmpty then [] else [⟨.TEXT, ⟨r.1⟩, r.2.2.line, r.2.2.col⟩], r.2.1, r.2.2)

/-- The `tokenize` loop (`while self.pos < len(self.source)`), fuel-indexed:
`none` means the loop did not finish within `fuel` iterations.  The loop
genuinely diverges on some inputs because `lexNextToken` can consume
nothing. -/
def tokenizeLoopF : Nat → List Char → LexPos → List Token → Option (List Token)
  | 0, _, _, _ => none
  | _ + 1, [], p, acc => some (acc ++ [⟨.EOF, "", p.line, p.col⟩])
  | fuel + 1, c :: cs, p, acc =>
    let r := lexNextToken (c :: cs) p
    tokenizeLoopF fuel r.2.1 r.2.2 (acc ++ r.1)

/-- `PyxmLexer(source).tokenize()`. -/
def PyxmLexer_tokenize (fuel : Nat) (source : String) : Option (List Token) :=
  tokenizeLoopF fuel source.data ⟨1, 1⟩ []

/-- Projection of a token to its (type, value) pair, for statements that do
not need line/column bookkeeping. -/
def tokKV (t : Token) : TokenType × String := (t.type, t.value)

/-! ## AST (`NodeType`, `PyxmNode`, `PyxmAST` in `pyxm_parser.py`) -/

/-- AST node types. -/
inductive NodeType where
  | ROOT | ELEMENT | TEXT | EXPRESSION
  | IF | ELIF | ELSE | FOR
  | COMPONENT | SLOT | BLOCK | PYTHON | COMMENT | FRAGMENT | RAW
deriving DecidableEq

/-- A static attribute value: either a quoted string or the bare-attribute
marker `True` (`attributes: Dict[str, Any]`). -/
inductive AttrVal where
  | s (v : String)
  | b (v : Bool)
deriving DecidableEq

/-- `PyxmNode` dataclass.  Field order and defaults follow the source. -/
inductive PyxmNode where
  | mk
    (type : NodeType)
    (tag : Option String)
    (attributes : List (String × AttrVal))
    (bindings : List (String × String))
    (events : List (String × String))
    (refs : List String)
    (children : List PyxmNode)
    (content : Option String)
    (condition : Option String)
    (iterator : Option String)
    (line : Nat)
    (column : Nat)
    (is_self_closing : Bool)
    (is_static : Bool)

/-- Node type. -/
def PyxmNode.type : PyxmNode → NodeType
  | .mk t _ _ _ _ _ _ _ _ _ _ _ _ _ => t

/-- Tag name. -/
def PyxmNode.tag : PyxmNode → Option String
  | .mk _ v _ _ _ _ _ _ _ _ _ _ _ _ => v

/-- Static attributes. -/
def PyxmNode.attributes : PyxmNode → List (String × AttrVal)
  | .mk _ _ v _ _ _ _ _ _ _ _ _ _ _ => v

/-- Dynamic attribute bindings. -/
def PyxmNode.bindings : PyxmNode → List (String × String)
  | .mk _ _ _ v _ _ _ _ _ _ _ _ _ _ => v

/-- Event bindings. -/
def PyxmNode.events : PyxmNode → List (String × String)
  | .mk _ _ _ _ v _ _ _ _ _ _ _ _ _ => v

/-- Reference bindings. -/
def PyxmNode.refs : PyxmNode → List String
  | .mk _ _ _ _ _ v _ _ _ _ _ _ _ _ => v

/-- Child nodes. -/
def PyxmNode.children : PyxmNode → List PyxmNode
  | .mk _ _ _ _ _ _ v _ _ _ _ _ _ _ => v

/-- Literal content. -/
def PyxmNode.content : PyxmNode → Option String
  | .mk _ _ _ _ _ _ _ v _ _ _ _ _ _ => v

/-- Condition text (if/elif). -/
def PyxmNode.condition : PyxmNode → Option String
  | .mk _ _ _ _ _ _ _ _ v _ _ _ _ _ => v

/-- Iterator text (for). -/
def PyxmNode.iterator : PyxmNode → Option String
  | .mk _ _ _ _ _ _ _ _ _ v _ _ _ _ => v

/-- Source line. -/
def PyxmNode.line : PyxmNode → Nat
  | .mk _ _ _ _ _ _ _ _ _ _ v _ _ _ => v

/-- Source column. -/
def PyxmNode.column : PyxmNode → Nat
  | .mk _ _ _ _ _ _ _ _ _ _ _ v _ _ => v

/-- Self-closing flag. -/
def PyxmNode.is_self_closing : PyxmNode → Bool
  | .mk _ _ _ _ _ _ _ _ _ _ _ _ v _ => v

/-- Static flag. -/
def PyxmNode.is_static : PyxmNode → Bool
  | .mk _ _ _ _ _ _ _ _ _ _ _ _ _ v => v

/-- Replace the node type (`elif_node.type = NodeType.ELIF`). -/
def withType (ty : NodeType) : PyxmNode → PyxmNode
  | .mk _ b c d e f g h i j k l m n => .mk ty b c d e f g h i j k l m n

/-- Replace the static flag (`node.is_static = ...`). -/
def withStatic (v : Bool) : PyxmNode → PyxmNode
  | .mk a b c d e f g h i j k l m _ => .mk a b c d e f g h i j k l m v

/-- `PyxmNode(type=TEXT, content=..., line=..., column=..., is_static=True)`. -/
def textNode (content : String) (line column : Nat) : PyxmNode :=
  .mk .TEXT none [] [] [] [] [] (some content) none none line column false true

/-- `PyxmNode(type=EXPRESSION, content=..., line=..., column=...)`. -/
def exprNode (content : String) (line column : Nat) : PyxmNode :=
  .mk .EXPRESSION none [] [] [] [] [] (some content) none none line column false false

/-- `PyxmNode(type=COMMENT, content=..., line=...)`. -/
def commentNode (content : String) (line : Nat) : PyxmNode :=
  .mk .COMMENT none [] [] [] [] [] (some content) none none line 0 false false

/-- `PyxmNode(type=PYTHON, content=..., line=...)`. -/
def pythonNode (content : String) (line : Nat) : PyxmNode :=
  .mk .PYTHON none [] [] [] [] [] (some content) none none line 0 false false

/-- `PyxmNode(type=IF, condition=...)` with its parsed children. -/
def ifNode (cond : String) (children : List PyxmNode) : PyxmNode :=
  .mk .IF none [] [] [] [] children none (some cond) none 0 0 false false

/-- `PyxmNode(type=ELSE)` with its parsed children. -/
def elseNode (children : List PyxmNode) : PyxmNode :=
  .mk .ELSE none [] [] [] [] children none none none 0 0 false false

/-- `PyxmNode(type=FOR, iterator=...)` with its parsed children. -/
def forNode (iter : String) (children : List PyxmNode) : PyxmNode :=
  .mk .FOR none [] [] [] [] children none none (some iter) 0 0 false false

/-- `PyxmNode(type=COMPONENT, tag=name)` with its parsed children. -/
def componentNode (name : String) (children : List PyxmNode) : PyxmNode :=
  .mk .COMPONENT (some name) [] [] [] [] children none none none 0 0 false false

/-- `PyxmNode(type=BLOCK, tag=name)` with its parsed children. -/
def blockNode (name : String) (children : List PyxmNode) : PyxmNode :=
  .mk .BLOCK (some name) [] [] [] [] children none none none 0 0 false false

/-- `PyxmNode(type=SLOT, tag=name)`. -/
def slotNode (name : String) : PyxmNode :=
  .mk .SLOT (some name) [] [] [] [] [] none none none 0 0 false false

/-- `PyxmNode(type=RAW, content=...)`. -/
def rawNode (content : String) : PyxmNode :=
  .mk .RAW none [] [] [] [] [] (some content) none none 0 0 false false

/-- `PyxmNode(type=ROOT)` with its collected children. -/
def rootNode (children : List PyxmNode) : PyxmNode :=
  .mk .ROOT none [] [] [] [] children none none none 0 0 false false

/-- Accumulated element attribute data during `_parse_element`. -/
structure ElemData where
  attributes : List (String × AttrVal)
  bindings : List (String × String)
  events : List (String × String)
  refs : List String
deriving DecidableEq

/-- Fresh `ElemData`. -/
def emptyElemData : ElemData := ⟨[], [], [], []⟩

/-- `PyxmNode(type=ELEMENT, tag=..., line=..., column=...)` carrying the
accumulated attribute data and children. -/
def elementNode (tag : String) (d : ElemData) (line column : Nat)
    (children : List PyxmNode) (selfClosing : Bool) (static : Bool) : PyxmNode :=
  .mk .ELEMENT (some tag) d.attributes d.bindings d.events d.refs children
    none none none line column selfClosing static

/-- `PyxmParser.VOID_ELEMENTS`. -/
def voidElements : List String :=
  ["area", "base", "br", "col", "embed", "hr", "img", "input",
   "link", "meta", "param", "source", "track", "wbr"]

/-- `_is_static_node`. -/
def isStaticNode (n : PyxmNode) : Bool :=
  if ¬ n.bindings.isEmpty ∨ ¬ n.events.isEmpty then false
  else n.children.all (fun c =>
    if c.type = .EXPRESSION ∨ c.type = .IF ∨ c.type = .FOR then false
    else if c.type = .ELEMENT ∧ ¬ c.is_static then false
    else true)

/-! ## Parser (`PyxmParser` in `pyxm_parser.py`)

A fueled interpretation of the recursive-descent parser: `fuelOut` means
the given fuel was exhausted, `err` a raised `SyntaxError`, `ok v pos` a
normal return with the parser's position.  Fuel is needed because the
parse loop genuinely diverges on some inputs (the end-keyword branch of
`_parse_statement` rewinds `pos` by exactly what it consumed). -/

/-- Result of a fueled parser computation. -/
inductive PRes (α : Type) where
  | fuelOut
  | err (msg : String)
  | ok (val : α) (pos : Nat)
deriving DecidableEq

/-- The EOF sentinel returned by `_current`/`_peek` past the end. -/
def eofToken : Token := ⟨.EOF, "", 0, 0⟩

/-- `PyxmParser._current`. -/
def curTok (tks : List Token) (pos : Nat) : Token := tks.getD pos eofToken

/-- `PyxmParser._peek` (offset 1). -/
def peekTok (tks : List Token) (pos : Nat) : Token := tks.getD (pos + 1) eofToken

/-- `PyxmParser._is_at_end`. -/
def parserAtEnd (tks : List Token) (pos : Nat) : Bool := (curTok tks pos).type = .EOF

/-- `TokenType.name`, for `_expect` error messages. -/
def TokenType.pyName : TokenType → String
  | .TEXT => "TEXT" | .WHITESPACE => "WHITESPACE" | .NEWLINE => "NEWLINE"
  | .TAG_OPEN => "TAG_OPEN" | .TAG_CLOSE => "TAG_CLOSE"
  | .TAG_SELF_CLOSE => "TAG_SELF_CLOSE" | .TAG_END_OPEN => "TAG_END_OPEN"
  | .TAG_NAME => "TAG_NAME" | .ATTR_NAME => "ATTR_NAME"
  | .ATTR_VALUE => "ATTR_VALUE" | .ATTR_EQUALS => "ATTR_EQUALS"
  | .EXPR_OPEN => "EXPR_OPEN" | .EXPR_CLOSE => "EXPR_CLOSE"
  | .EXPR_CONTENT => "EXPR_CONTENT" | .STMT_OPEN => "STMT_OPEN"
  | .STMT_CLOSE => "STMT_CLOSE" | .STMT_CONTENT => "STMT_CONTENT"
  | .COMMENT_OPEN => "COMMENT_OPEN" | .COMMENT_CLOSE => "COMMENT_CLOSE"
  | .COMMENT_CONTENT => "COMMENT_CONTENT" | .PY_BLOCK_OPEN => "PY_BLOCK_OPEN"
  | .PY_BLOCK_CLOSE => "PY_BLOCK_CLOSE" | .PY_CONTENT => "PY_CONTENT"
  | .EVENT_BIND => "EVENT_BIND" | .ATTR_BIND => "ATTR_BIND"
  | .REF_BIND => "REF_BIND" | .EOF => "EOF"

/-- `PyxmParser._expect`. -/
def expectT (tks : List Token) (pos : Nat) (ty : TokenType) : Except String (Token × Nat) :=
  let t := curTok tks pos
  if t.type = ty then .ok (t, pos + 1)
  else .error ("Expected " ++ ty.pyName ++ ", got " ++ t.type.pyName ++
    " at line " ++ Nat.repr t.line ++ ":" ++ Nat.repr t.column)

/-- `PyxmParser._is_end_tag`. -/
def isEndTagAt (tks : List Token) (pos : Nat) (name : String) : Bool :=
  (curTok tks pos).type = .STMT_OPEN ∧ (peekTok tks pos).type = .STMT_CONTENT ∧
    pyStrip (peekTok tks pos).value = name

/-- `PyxmParser._is_elif`. -/
def isElifAt (tks : List Token) (pos : Nat) : Bool :=
  (curTok tks pos).type = .STMT_OPEN ∧ (peekTok tks pos).type = .STMT_CONTENT ∧
    pyStartsWith (pyStrip (peekTok tks pos).value) "elif "

/-- `PyxmParser._consume_elif`: returns the condition after `elif `. -/
def consumeElifP (tks : List Token) (pos : Nat) : Except String (String × Nat) :=
  match expectT tks pos .STMT_OPEN with
  | .error e => .error e
  | .ok (_, p₁) =>
  match expectT tks p₁ .STMT_CONTENT with
  | .error e => .error e
  | .ok (ct, p₂) =>
  match expectT tks p₂ .STMT_CLOSE with
  | .error e => .error e
  | .ok (_, p₃) => .ok (pyStrip ⟨(pyStrip ct.value).data.drop 5⟩, p₃)

/-- `PyxmParser._consume_end_tag`. -/
def consumeEndTagP (tks : List Token) (pos : Nat) (name : String) : Except String Nat :=
  match expectT tks pos .STMT_OPEN with
  | .error e => .error e
  | .ok (_, p₁) =>
  match expectT tks p₁ .STMT_CONTENT with
  | .error e => .error e
  | .ok (ct, p₂) =>
  if ¬ (pyStrip ct.value = name) then .error ("Expected " ++ name ++ ", got " ++ ct.value)
  else
    match expectT tks p₂ .STMT_CLOSE with
    | .error e => .error e
    | .ok (_, p₃) => .ok p₃

/-- `PyxmParser._parse_expression` (pure, no recursion). -/
def parseExpressionP (tks : List Token) (pos : Nat) : Except String (PyxmNode × Nat) :=
  match expectT tks pos .EXPR_OPEN with
  | .error e => .error e
  | .ok (_, p₁) =>
  match expectT tks p₁ .EXPR_CONTENT with
  | .error e => .error e
  | .ok (ct, p₂) =>
  match expectT tks p₂ .EXPR_CLOSE with
  | .error e => .error e
  | .ok (_, p₃) => .ok (exprNode ct.value ct.line ct.column, p₃)

/-- `PyxmParser._parse_comment` (pure). -/
def parseCommentP (tks : List Token) (pos : Nat) : Except String (PyxmNode × Nat) :=
  match expectT tks pos .COMMENT_OPEN with
  | .error e => .error e
  | .ok (_, p₁) =>
  match expectT tks p₁ .COMMENT_CONTENT with
  | .error e => .error e
  | .ok (ct, p₂) =>
  match expectT tks p₂ .COMMENT_CLOSE with
  | .error e => .error e
  | .ok (_, p₃) => .ok (commentNode ct.value ct.line, p₃)

/-- `PyxmParser._parse_python_block` (pure). -/
def parsePythonP (tks : List Token) (pos : Nat) : Except String (PyxmNode × Nat) :=
  match expectT tks pos .PY_BLOCK_OPEN with
  | .error e => .error e
  | .ok (_, p₁) =>
  match expectT tks p₁ .PY_CONTENT with
  | .error e => .error e
  | .ok (ct, p₂) =>
  match expectT tks p₂ .PY_BLOCK_CLOSE with
  | .error e => .error e
  | .ok (_, p₃) => .ok (pythonNode ct.value ct.line, p₃)

/-- `PyxmParser._parse_slot_block` (pure). -/
def parseSlotP (content : String) : PyxmNode :=
  let parts := pySplitWs content
  slotNode (parts.getD 1 "default")

/-- The end-keyword set of `_parse_statement`. -/
def isEndKeyword (content : String) : Bool :=
  content = "endif" ∨ content = "endfor" ∨ content = "endcomponent" ∨
  content = "endblock" ∨ content = "endraw" ∨ content = "else" ∨ content = "elif"

mutual

/-- `PyxmParser._parse_node` (fueled). -/
def parseNodeF : Nat → List Token → Nat → PRes (Option PyxmNode)
  | 0, _, _ => .fuelOut
  | fuel + 1, tks, pos =>
    match (curTok tks pos).type with
    | .TEXT =>
      let t := curTok tks pos
      .ok (some (textNode t.value t.line t.column)) (pos + 1)
    | .EXPR_OPEN =>
      match parseExpressionP tks pos with
      | .error e => .err e
      | .ok (n, p) => .ok (some n) p
    | .STMT_OPEN => parseStatementF fuel tks pos
    | .COMMENT_OPEN =>
      match parseCommentP tks pos with
      | .error e => .err e
      | .ok (n, p) => .ok (some n) p
    | .PY_BLOCK_OPEN =>
      match parsePythonP tks pos with
      | .error e => .err e
      | .ok (n, p) => .ok (some n) p
    | .TAG_OPEN =>
      match parseElementF fuel tks pos with
      | .fuelOut => .fuelOut
      | .err e => .err e
      | .ok n p => .ok (some n) p
    | .TAG_END_OPEN => .ok none pos
    | _ => .ok none (pos + 1)
termination_by structural fuel => fuel


/-- `PyxmParser._parse_statement` (fueled).  The end-keyword branch rewinds
the position by 3 (`self.pos -= 3`) and returns `None`. -/
def parseStatementF : Nat → List Token → Nat → PRes (Option PyxmNode)
  | 0, _, _ => .fuelOut
  | fuel + 1, tks, pos =>
    match expectT tks pos .STMT_OPEN with
    | .error e => .err e
    | .ok (_, p₁) =>
    match expectT tks p₁ .STMT_CONTENT with
    | .error e => .err e
    | .ok (ct, p₂) =>
    match expectT tks p₂ .STMT_CLOSE with
    | .error e => .err e
    | .ok (_, p₃) =>
    let content := pyStrip ct.value
    if pyStartsWith content "if " then
      match parseIfBlockF fuel tks (pyStrip ⟨content.data.drop 3⟩) p₃ with
      | .fuelOut => .fuelOut
      | .err e => .err e
      | .ok n p => .ok (some n) p
    else if pyStartsWith content "for " then
      match parseChildrenUntilF fuel tks ["endfor"] p₃ [] with
      | .fuelOut => .fuelOut
      | .err e => .err e
      | .ok ch p =>
        match consumeEndTagP tks p "endfor" with
        | .error e => .err e
        | .ok p₂ => .ok (some (forNode (pyStrip ⟨content.data.drop 4⟩) ch)) p₂
    else if pyStartsWith content "component " then
      match parseChildrenUntilF fuel tks ["endcomponent"] p₃ [] with
      | .fuelOut => .fuelOut
      | .err e => .err e
      | .ok ch p =>
        match consumeEndTagP tks p "endcomponent" with
        | .error e => .err e
        | .ok p₂ => .ok (some (componentNode (pyStrip ⟨content.data.drop 10⟩) ch)) p₂
    else if pyStartsWith content "block " then
      match parseChildrenUntilF fuel tks ["endblock"] p₃ [] with
      | .fuelOut => .fuelOut
      | .err e => .err e
      | .ok ch p =>
        match consumeEndTagP tks p "endblock" with
        | .error e => .err e
        | .ok p₂ => .ok (some (blockNode (pyStrip ⟨content.data.drop 6⟩) ch)) p₂
    else if pyStartsWith content "slot" then .ok (some (parseSlotP content)) p₃
    else if pyStartsWith content "raw" then
      match parseRawLoopF fuel tks p₃ [] with
      | .fuelOut => .fuelOut
      | .err e => .err e
      | .ok parts p => .ok (some (rawNode (String.join parts))) p
    else if isEndKeyword content then .ok none (p₃ - 3)
    else .ok (some (commentNode ("Unknown statement: " ++ content) ct.line)) p₃
termination_by structural fuel => fuel


/-- `PyxmParser._parse_if_block` (fueled). -/
def parseIfBlockF : Nat → List Token → String → Nat → PRes PyxmNode
  | 0, _, _, _ => .fuelOut
  | fuel + 1, tks, cond, pos =>
    match parseIfChildrenF fuel tks pos [] with
    | .fuelOut => .fuelOut
    | .err e => .err e
    | .ok children p => .ok (ifNode cond children) p
termination_by structural fuel => fuel


/-- The child loop of `_parse_if_block` (fueled). -/
def parseIfChildrenF : Nat → List Token → Nat → List PyxmNode → PRes (List PyxmNode)
  | 0, _, _, _ => .fuelOut
  | fuel + 1, tks, pos, acc =>
    if parserAtEnd tks pos then .ok acc pos
    else if isEndTagAt tks pos "endif" then
      match consumeEndTagP tks pos "endif" with
      | .error e => .err e
      | .ok p => .ok acc p
    else if isEndTagAt tks pos "else" then
      match consumeEndTagP tks pos "else" with
      | .error e => .err e
      | .ok p =>
        match parseChildrenUntilF fuel tks ["endif"] p [] with
        | .fuelOut => .fuelOut
        | .err e => .err e
        | .ok ech p₂ =>
          match consumeEndTagP tks p₂ "endif" with
          | .error e => .err e
          | .ok p₃ => .ok (acc ++ [elseNode ech]) p₃
    else if isElifAt tks pos then
      match consumeElifP tks pos with
      | .error e => .err e
      | .ok (c₂, p) =>
        match parseIfBlockF fuel tks c₂ p with
        | .fuelOut => .fuelOut
        | .err e => .err e
        | .ok n p₂ => .ok (acc ++ [withType .ELIF n]) p₂
    else
      match parseNodeF fuel tks pos with
      | .fuelOut => .fuelOut
      | .err e => .err e
      | .ok none p => parseIfChildrenF fuel tks p acc
      | .ok (some n) p => parseIfChildrenF fuel tks p (acc ++ [n])
termination_by structural fuel => fuel


/-- `PyxmParser._parse_children_until` (fueled). -/
def parseChildrenUntilF : Nat → List Token → List String → Nat → List PyxmNode → PRes (List PyxmNode)
  | 0, _, _, _, _ => .fuelOut
  | fuel + 1, tks, endTags, pos, acc =>
    if parserAtEnd tks pos then .ok acc pos
    else if endTags.any (fun tag => isEndTagAt tks pos tag) then .ok acc pos
    else
      match parseNodeF fuel tks pos with
      | .fuelOut => .fuelOut
      | .err e => .err e
      | .ok none p => parseChildrenUntilF fuel tks endTags p acc
      | .ok (some n) p => parseChildrenUntilF fuel tks endTags p (acc ++ [n])
termination_by structural fuel => fuel


/-- The collection loop of `_parse_raw_block` (fueled). -/
def parseRawLoopF : Nat → List Token → Nat → List String → PRes (List String)
  | 0, _, _, _ => .fuelOut
  | fuel + 1, tks, pos, parts =>
    if parserAtEnd tks pos then .ok parts pos
    else if isEndTagAt tks pos "endraw" then
      match consumeEndTagP tks pos "endraw" with
      | .error e => .err e
      | .ok p => .ok parts p
    else parseRawLoopF fuel tks (pos + 1) (parts ++ [(curTok tks pos).value])
termination_by structural fuel => fuel


/-- The attribute loop of `_parse_element` (fueled). -/
def parseElemAttrsF : Nat → List Token → Nat → ElemData → PRes ElemData
  | 0, _, _, _ => .fuelOut
  | fuel + 1, tks, pos, d =>
    let t := curTok tks pos
    if t.type = .TAG_CLOSE ∨ t.type = .TAG_SELF_CLOSE ∨ t.type = .EOF then .ok d pos
    else if t.type = .ATTR_NAME then
      let t₂ := curTok tks (pos + 1)
      if t₂.type = .ATTR_EQUALS then
        let t₃ := curTok tks (pos + 2)
        if t₃.type = .ATTR_VALUE then
          parseElemAttrsF fuel tks (pos + 3)
            { d with attributes := dictSet d.attributes t.value (.s t₃.value) }
        else
          parseElemAttrsF fuel tks (pos + 2)
            { d with attributes := dictSet d.attributes t.value (.b true) }
      else
        parseElemAttrsF fuel tks (pos + 1)
          { d with attributes := dictSet d.attributes t.value (.b true) }
    else if t.type = .EVENT_BIND then
      let t₂ := curTok tks (pos + 1)
      if t₂.type = .ATTR_EQUALS then
        let t₃ := curTok tks (pos + 2)
        if t₃.type = .ATTR_VALUE then
          parseElemAttrsF fuel tks (pos + 3)
            { d with events := dictSet d.events t.value t₃.value }
        else parseElemAttrsF fuel tks (pos + 2) d
      else parseElemAttrsF fuel tks (pos + 1) d
    else if t.type = .ATTR_BIND then
      let t₂ := curTok tks (pos + 1)
      if t₂.type = .ATTR_EQUALS then
        let t₃ := curTok tks (pos + 2)
        if t₃.type = .ATTR_VALUE then
          parseElemAttrsF fuel tks (pos + 3)
            { d with bindings := dictSet d.bindings t.value t₃.value }
        else parseElemAttrsF fuel tks (pos + 2) d
      else parseElemAttrsF fuel tks (pos + 1) d
    else if t.type = .REF_BIND then
      parseElemAttrsF fuel tks (pos + 1) { d with refs := d.refs ++ [t.value] }
    else .ok d pos
termination_by structural fuel => fuel


/-- The children loop of `_parse_element` (fueled): stops at a closing tag,
raising the tag-mismatch `SyntaxError` when names differ. -/
def parseElemChildrenF : Nat → List Token → String → Nat → List PyxmNode → PRes (List PyxmNode)
  | 0, _, _, _, _ => .fuelOut
  | fuel + 1, tks, tag, pos, acc =>
    if parserAtEnd tks pos then .ok acc pos
    else if (curTok tks pos).type = .TAG_END_OPEN then
      match expectT tks (pos + 1) .TAG_NAME with
      | .error e => .err e
      | .ok (closeTok, p₁) =>
        match expectT tks p₁ .TAG_CLOSE with
        | .error e => .err e
        | .ok (_, p₂) =>
          if ¬ (pyLower closeTok.value = tag) then
            .err ("Mismatched tags: expected </" ++ tag ++ ">, got </" ++ closeTok.value ++ ">")
          else .ok acc p₂
    else
      match parseNodeF fuel tks pos with
      | .fuelOut => .fuelOut
      | .err e => .err e
      | .ok none p => parseElemChildrenF fuel tks tag p acc
      | .ok (some n) p => parseElemChildrenF fuel tks tag p (acc ++ [n])
termination_by structural fuel => fuel


/-- `PyxmParser._parse_element` (fueled). -/
def parseElementF : Nat → List Token → Nat → PRes PyxmNode
  | 0, _, _ => .fuelOut
  | fuel + 1, tks, pos =>
    match expectT tks pos .TAG_OPEN with
    | .error e => .err e
    | .ok (_, p₁) =>
    match expectT tks p₁ .TAG_NAME with
    | .error e => .err e
    | .ok (tagTok, p₂) =>
    let tag := pyLower tagTok.value
    match parseElemAttrsF fuel tks p₂ emptyElemData with
    | .fuelOut => .fuelOut
    | .err e => .err e
    | .ok d p₃ =>
      if (curTok tks p₃).type = .TAG_SELF_CLOSE then
        .ok (elementNode tag d tagTok.line tagTok.column [] true false) (p₃ + 1)
      else
        match expectT tks p₃ .TAG_CLOSE with
        | .error e => .err e
        | .ok (_, p₄) =>
          if voidElements.contains tag then
            .ok (elementNode tag d tagTok.line tagTok.column [] true false) p₄
          else
            match parseElemChildrenF fuel tks tag p₄ [] with
            | .fuelOut => .fuelOut
            | .err e => .err e
            | .ok ch p₅ =>
              let node := elementNode tag d tagTok.line tagTok.column ch false false
              .ok (withStatic (isStaticNode node) node) p₅
termination_by structural fuel => fuel

end

/-- The top-level loop of `PyxmParser.parse` (fueled): accumulates root
children and Python blocks. -/
def parseTopF : Nat → List Token → Nat → List PyxmNode → List String → PRes (List PyxmNode × List String)
  | 0, _, _, _, _ => .fuelOut
  | fuel + 1, tks, pos, rootCh, pyBlocks =>
    if parserAtEnd tks pos then .ok (rootCh, pyBlocks) pos
    else
      match parseNodeF fuel tks pos with
      | .fuelOut => .fuelOut
      | .err e => .err e
      | .ok none p => parseTopF fuel tks p rootCh pyBlocks
      | .ok (some n) p =>
        if n.type = .PYTHON then parseTopF fuel tks p rootCh (pyBlocks ++ [n.content.getD ""])
        else parseTopF fuel tks p (rootCh ++ [n]) pyBlocks

/-- `PyxmAST` dataclass. -/
structure PyxmAST where
  root : PyxmNode
  python_blocks : List String
  imports : List String
  components : List (String × PyxmNode)
  slots : List (String × PyxmNode)

/-- `PyxmNode.find_by_type` (fueled tree walk; the fuel bounds the tree
depth and is never exhausted for trees built with the same fuel). -/
def findByTypeF : Nat → PyxmNode → NodeType → List PyxmNode
  | 0, _, _ => []
  | fuel + 1, n, ty =>
    (if n.type = ty then [n] else []) ++ n.children.flatMap (fun c => findByTypeF fuel c ty)

/-- `PyxmParser._analyze_ast`: extract imports from Python blocks and index
components/slots by (truthy) tag. -/
def analyzeAST (fuel : Nat) (root : PyxmNode) (pyBlocks : List String) : PyxmAST :=
  let imports := pyBlocks.flatMap (fun b =>
    (splitOnChar '\n' b).filterMap (fun line =>
      let l := pyStrip line
      if pyStartsWith l "import " ∨ pyStartsWith l "from " then some l else none))
  let comps := (findByTypeF fuel root .COMPONENT).foldl (fun acc n =>
    match n.tag with
    | some t => if ¬ (t = "") then dictSet acc t n else acc
    | none => acc) []
  let slts := (findByTypeF fuel root .SLOT).foldl (fun acc n =>
    match n.tag with
    | some t => if ¬ (t = "") then dictSet acc t n else acc
    | none => acc) []
  ⟨root, pyBlocks, imports, comps, slts⟩

/-- `PyxmParser.parse`: tokenize, build the root, then analyze. -/
def PyxmParser_parse (fuel : Nat) (source : String) : PRes PyxmAST :=
  match PyxmLexer_tokenize fuel source with
  | none => .fuelOut
  | some tks =>
    match parseTopF fuel tks 0 [] [] with
    | .fuelOut => .fuelOut
    | .err e => .err e
    | .ok (children, blocks) p => .ok (analyzeAST fuel (rootNode children) blocks) p

/-- A structural summary of a node (type plus the content/condition/iterator
text and summarized children), used to state theorems about parsed trees
without spelling out line/column bookkeeping. -/
inductive NodeSummary where
  | text (s : String)
  | expr (s : String)
  | ifS (cond : String) (children : List NodeSummary)
  | elifS (cond : String) (children : List NodeSummary)
  | elseS (children : List NodeSummary)
  | forS (iter : String) (children : List NodeSummary)
  | comment (s : String)
  | other (t : NodeType)

/-- Summarize a node (fueled tree walk). -/
def summarizeF : Nat → PyxmNode → NodeSummary
  | 0, _ => .other .FRAGMENT
  | fuel + 1, n =>
    match n.type with
    | .TEXT => .text (n.content.getD "")
    | .EXPRESSION => .expr (n.content.getD "")
    | .IF => .ifS (n.condition.getD "") (n.children.map (summarizeF fuel))
    | .ELIF => .elifS (n.condition.getD "") (n.children.map (summarizeF fuel))
    | .ELSE => .elseS (n.children.map (summarizeF fuel))
    | .FOR => .forS (n.iterator.getD "") (n.children.map (summarizeF fuel))
    | .COMMENT => .comment (n.content.getD "")
    | t => .other t

/-- Parse a source and summarize the root's children (`none` when the parse
ran out of fuel or failed). -/
def parsedRootSummary (fuel : Nat) (source : String) : Option (List NodeSummary) :=
  match PyxmParser_parse fuel source with
  | .ok ast _ => some (ast.root.children.map (summarizeF fuel))
  | _ => none

/-- The first root child of a parsed source, if any. -/
def firstRootNode (fuel : Nat) (source : String) : Option PyxmNode :=
  match PyxmParser_parse fuel source with
  | .ok ast _ => ast.root.children.head?
  | _ => none

/-! ## Compiler (`PyxmCompiler` in `pyxm_compiler.py`)

The compiler emits Python source text and `exec`s it.  The embedding keeps
the parts the claims are about: the canonical AST serialization feeding
`source_hash`, the metadata collectors, the expression/filter compilation
(`_compile_expression` / `_compile_filters`) together with the runtime
meaning of the emitted append for string-literal expressions, the loop
header/trailer emitted by `_compile_for`, and the branch structure of the
`if`/`elif`/`else` chain emitted by `_compile_if`. -/

/-- `NodeType.name` as used by `PyxmNode.to_dict`. -/
def NodeType.pyName : NodeType → String
  | .ROOT => "ROOT" | .ELEMENT => "ELEMENT" | .TEXT => "TEXT"
  | .EXPRESSION => "EXPRESSION" | .IF => "IF" | .ELIF => "ELIF"
  | .ELSE => "ELSE" | .FOR => "FOR" | .COMPONENT => "COMPONENT"
  | .SLOT => "SLOT" | .BLOCK => "BLOCK" | .PYTHON => "PYTHON"
  | .COMMENT => "COMMENT" | .FRAGMENT => "FRAGMENT" | .RAW => "RAW"

/-- Python `repr` of a plain string (adequate for the serialized forms
occurring here: no embedded quotes or escapes). -/
def pyRepr (s : String) : String := ⟨sqC :: (s.data ++ [sqC])⟩

/-- Python `str()` of an optional string (`None` when absent). -/
def pyReprOpt : Option String → String
  | none => "None"
  | some s => pyRepr s

/-- Python `str()` of a static attribute value. -/
def pyReprAttr : AttrVal → String
  | .s v => pyRepr v
  | .b true => "True"
  | .b false => "False"

/-- Python `str()` of a dict with string keys. -/
def pyReprDict {V : Type} (f : V → String) (d : List (String × V)) : String :=
  "\x7b" ++ String.intercalate ", " (d.map (fun p => pyRepr p.1 ++ ": " ++ f p.2)) ++ "\x7d"

/-- `str(node.to_dict())`: the canonical serialization hashed by
`PyxmCompiler.compile` (fields in `to_dict` order: type, tag, attributes,
bindings, events, content, condition, iterator, children). -/
def serializeNodeF : Nat → PyxmNode → String
  | 0, _ => ""
  | fuel + 1, n =>
    "\x7b" ++ pyRepr "type" ++ ": " ++ pyRepr n.type.pyName ++
    ", " ++ pyRepr "tag" ++ ": " ++ pyReprOpt n.tag ++
    ", " ++ pyRepr "attributes" ++ ": " ++ pyReprDict pyReprAttr n.attributes ++
    ", " ++ pyRepr "bindings" ++ ": " ++ pyReprDict pyRepr n.bindings ++
    ", " ++ pyRepr "events" ++ ": " ++ pyReprDict pyRepr n.events ++
    ", " ++ pyRepr "content" ++ ": " ++ pyReprOpt n.content ++
    ", " ++ pyRepr "condition" ++ ": " ++ pyReprOpt n.condition ++
    ", " ++ pyRepr "iterator" ++ ": " ++ pyReprOpt n.iterator ++
    ", " ++ pyRepr "children" ++ ": [" ++
      String.intercalate ", " (n.children.map (serializeNodeF fuel)) ++ "]\x7d"

/-- `source_hash = hashlib.md5(str(ast.root.to_dict()).encode()).hexdigest()[:12]`. -/
def sourceHashOf (fuel : Nat) (ast : PyxmAST) : String :=
  ⟨(md5hex (serializeNodeF fuel ast.root)).data.take 12⟩

/-- `PyxmCompiler._collect_bindings` (pre-order `dict.update`). -/
def collectBindingsF : Nat → PyxmNode → List (String × String) → List (String × String)
  | 0, _, acc => acc
  | fuel + 1, n, acc =>
    n.children.foldl (fun a c => collectBindingsF fuel c a) (dictUpdate acc n.bindings)

/-- `PyxmCompiler._collect_events`. -/
def collectEventsF : Nat → PyxmNode → List (String × String) → List (String × String)
  | 0, _, acc => acc
  | fuel + 1, n, acc =>
    n.children.foldl (fun a c => collectEventsF fuel c a) (dictUpdate acc n.events)

/-- The metadata of a `CompiledTemplate` (name, `source_hash`, `bindings`,
`events`, `components`); the render routine itself is modelled per node
kind below. -/
structure CompiledMeta where
  name : String
  source_hash : String
  bindings : List (String × String)
  events : List (String × String)
  components : List String
deriving DecidableEq

/-- The metadata assembled by `PyxmCompiler.compile`. -/
def PyxmCompiler_compileMeta (fuel : Nat) (ast : PyxmAST) (name : String) : CompiledMeta :=
  ⟨name, sourceHashOf fuel ast,
   collectBindingsF fuel ast.root [], collectEventsF fuel ast.root [],
   ast.components.map (fun p => p.1)⟩

/-- One full compilation run on a source string: a fresh lexer, a fresh
parser and a fresh compiler, exactly as `Template._compile` performs it. -/
def compileOnce (fuel : Nat) (source name : String) : Option (Except String CompiledMeta) :=
  match PyxmParser_parse fuel source with
  | .fuelOut => none
  | .err e => some (.error e)
  | .ok ast _ => some (.ok (PyxmCompiler_compileMeta fuel ast name))

/-! ### Expression compilation (`_compile_expression` / `_compile_filters`) -/

/-- `f"_filters['{name}']({arg})"`. -/
def filterCallStr (name arg : String) : String :=
  "_filters[" ++ String.singleton sqC ++ name ++ String.singleton sqC ++ "](" ++ arg ++ ")"

/-- One step of `_compile_filters`: wrap `result` in the filter call,
splitting off a parenthesised argument list if present. -/
def compileFilterStep (result filterExpr : String) : String :=
  if strContains filterExpr "(" then
    let i := (filterExpr.data.takeWhile (fun c => ¬ c = '(')).length
    let name : String := ⟨filterExpr.data.take i⟩
    let args : List Char := filterExpr.data.drop i
    filterCallStr name (result ++ ", " ++ (⟨(args.drop 1).dropLast⟩ : String))
  else filterCallStr filterExpr result

/-- `PyxmCompiler._compile_filters`. -/
def compileFiltersStr (expr : String) : String :=
  let parts := (splitOnChar '|' expr).map pyStrip
  (parts.drop 1).foldl compileFilterStep (parts.getD 0 "")

/-- The append statement emitted by `_compile_expression` for an expression
node: nothing for falsy content, otherwise the (possibly filter-rewritten)
expression, appended raw when the `is_safe` test fires and HTML-escaped
otherwise. -/
inductive ExprEmit where
  | nothing
  | appendRaw (expr : String)
  | appendEscaped (expr : String)
deriving DecidableEq

/-- `PyxmCompiler._compile_expression`: note that the `is_safe` test
(`expr.endswith("|safe") or "safe(" in expr`) runs on the expression text
*after* `_compile_filters` has rewritten it. -/
def compileExpressionEmit (content : Option String) : ExprEmit :=
  match content with
  | none => .nothing
  | some c =>
    if c = "" then .nothing
    else
      let e₀ := pyStrip c
      let e₁ := if strContains e₀ "|" then compileFiltersStr e₀ else e₀
      if pyEndsWith e₁ "|safe" ∨ strContains e₁ "safe(" then .appendRaw e₁
      else .appendEscaped e₁

/-- The filter name `_compile_filters` looks up for one chain segment. -/
def filterNameOf (filterExpr : String) : String :=
  if strContains filterExpr "(" then ⟨filterExpr.data.takeWhile (fun c => ¬ c = '(')⟩
  else filterExpr

/-- A Python double-quoted string literal (no escapes), as evaluated by the
generated code's `eval` of the expression head. -/
def evalPyStrLit (s : String) : Option String :=
  match s.data with
  | c :: rest =>
    if c = dqC ∧ rest.getLast? = some dqC ∧ ¬ ((rest.dropLast).any (fun x => x = dqC)) then
      some ⟨rest.dropLast⟩
    else none
  | [] => none

/-- The string-typed, argument-free entries of
`PyxmCompiler._create_builtin_filters`, as applied by the generated
`_filters[name](value)` call at render time. -/
def applyBuiltinFilter (name : String) (v : String) : Option String :=
  if name = "escape" ∨ name = "e" then some (htmlEscape v)
  else if name = "safe" then some v
  else if name = "upper" then some ⟨v.data.map Char.toUpper⟩
  else if name = "lower" then some ⟨v.data.map Char.toLower⟩
  else if name = "strip" then some (pyStrip v)
  else if name = "str" then some v
  else none

/-- Runtime value of the compiled filter chain for a string-literal head:
evaluate the head, then apply each filter left to right. -/
def evalFilterChainVal (expr : String) : Option String :=
  let parts := (splitOnChar '|' expr).map pyStrip
  (parts.drop 1).foldl (fun acc f => acc.bind (applyBuiltinFilter (filterNameOf f)))
    (evalPyStrLit (parts.getD 0 ""))

/-- Rendered output of one expression node (`{{ ... }}`) whose head is a
string literal: what the statement emitted by `_compile_expression`
appends when executed.  `none` models a render-time failure (unknown
filter or non-literal head, outside this model's scope). -/
def renderExpressionNode (content : Option String) : Option String :=
  match content with
  | none => some ""
  | some c =>
    if c = "" then some ""
    else
      match evalFilterChainVal (pyStrip c) with
      | none => none
      | some v =>
        match compileExpressionEmit content with
        | .nothing => some ""
        | .appendRaw _ => some v
        | .appendEscaped _ => some (htmlEscape v)

/-! ### Loop compilation (`_compile_for`)

The emitted loop body is, in order:
`_loop{depth} = \x7b'index': 0, 'first': True, 'last': False\x7d`, then the
compiled children, then `_loop{depth}['index'] += 1` and
`_loop{depth}['first'] = False`.  Because the initializing assignment is
*inside* the loop body, it re-runs on every iteration before the children
execute. -/

/-- The loop-metadata dict emitted by `_compile_for`. -/
structure LoopMeta where
  index : Int
  first : Bool
  last : Bool
deriving DecidableEq

/-- The emitted initializer `\x7b'index': 0, 'first': True, 'last': False\x7d`. -/
def loopMetaInit : LoopMeta := ⟨0, true, false⟩

/-- The emitted trailer: `['index'] += 1` and `['first'] = False`
(`'last'` is never written again). -/
def loopMetaStep (m : LoopMeta) : LoopMeta := ⟨m.index + 1, false, m.last⟩

/-- `loop_var = f"_loop\x7bself.context.loop_depth\x7d"`. -/
def loopVarName (depth : Nat) : String := "_loop" ++ Nat.repr depth

/-- The value of the loop-metadata variable observed by the children on
each of `n` iterations: the body's first statement reassigns the
initializer, so the incoming value (updated by the previous iteration's
trailer) is dead. -/
def loopBodyMetas : Nat → LoopMeta → List LoopMeta
  | 0, _ => []
  | n + 1, _ => loopMetaInit :: loopBodyMetas n (loopMetaStep loopMetaInit)

/-! ### Conditional compilation (`_compile_if`)

`_compile_if` iterates over the If node's children, opening an `elif`
branch on an ELIF child (compiling only that child's non-ELIF/ELSE
children into it) and an `else` branch on an ELSE child (compiling all its
children); every other child is compiled into whichever branch is
currently open. -/

/-- The if/elif/else chain emitted by `_compile_if`: guarded branches in
order, plus an optional else body. -/
structure IfStruct where
  branches : List (String × List PyxmNode)
  elseBranch : Option (List PyxmNode)

/-- Fold state while walking the If node's children. -/
structure IfAcc where
  branches : List (String × List PyxmNode)
  curCond : Option String
  curBody : List PyxmNode

/-- One child step of `_compile_if`'s loop. -/
def compileIfFoldStep (a : IfAcc) (child : PyxmNode) : IfAcc :=
  if child.type = .ELIF then
    ⟨(match a.curCond with
      | some c => a.branches ++ [(c, a.curBody)]
      | none => a.branches),
     some (child.condition.getD ""),
     child.children.filter (fun n => ¬ (n.type = .ELIF ∨ n.type = .ELSE))⟩
  else if child.type = .ELSE then
    ⟨(match a.curCond with
      | some c => a.branches ++ [(c, a.curBody)]
      | none => a.branches),
     none,
     child.children⟩
  else ⟨a.branches, a.curCond, a.curBody ++ [child]⟩

/-- The chain structure emitted by `_compile_if` for an If node. -/
def compileIfStruct (n : PyxmNode) : IfStruct :=
  let acc := n.children.foldl compileIfFoldStep ⟨[], some (n.condition.getD ""), []⟩
  match acc.curCond with
  | some c => ⟨acc.branches ++ [(c, acc.curBody)], none⟩
  | none => ⟨acc.branches, some acc.curBody⟩

/-- Output contributed by a branch body consisting of Text nodes: each
`_compile_text` appends the node's literal content. -/
def renderTextChildren (body : List PyxmNode) : String :=
  String.join (body.map (fun n => match n.type with
    | .TEXT => n.content.getD ""
    | _ => ""))

/-- Execution of the emitted if/elif/else chain: the first branch whose
condition text evaluates truthy runs; otherwise the else body, if one was
emitted; otherwise nothing. -/
def renderIfStruct (s : IfStruct) (condTruthy : String → Bool) : String :=
  match s.branches.find? (fun b => condTruthy b.1) with
  | some b => renderTextChildren b.2
  | none =>
    match s.elseBranch with
    | some body => renderTextChildren body
    | none => ""

/-! ## `TemplateCache` (`pyxm_compiler.py`) -/

/-- The state of a `TemplateCache` with values of type `V`
(`CompiledTemplate` in the source): `max_size`, the `_cache` dict and the
`_access_order` list. -/
structure CacheSt (V : Type) where
  max_size : Nat
  cache : List (String × V)
  order : List String
deriving DecidableEq

/-- `TemplateCache(max_size)`. -/
def emptyCache (V : Type) (maxSize : Nat) : CacheSt V := ⟨maxSize, [], []⟩

/-- `TemplateCache.get`: on a hit, move the key to the back of
`_access_order` (`remove` then `append`) and return the entry. -/
def TemplateCache_get {V : Type} (st : CacheSt V) (key : String) : Option V × CacheSt V :=
  if dictContains st.cache key then
    (dictGet st.cache key, ⟨st.max_size, st.cache, st.order.erase key ++ [key]⟩)
  else (none, st)

/-- `TemplateCache.set`.  `none` models the `IndexError` raised by
`self._access_order.pop(0)` on an empty list (reachable only with
`max_size = 0`); the Python object is left unchanged when that exception
propagates. -/
def TemplateCache_set {V : Type} (st : CacheSt V) (key : String) (v : V) : Option (CacheSt V) :=
  if dictContains st.cache key then
    some ⟨st.max_size, dictSet st.cache key v, st.order.erase key ++ [key]⟩
  else if st.cache.length ≥ st.max_size then
    match st.order with
    | [] => none
    | oldest :: restOrder =>
      some ⟨st.max_size, dictSet (dictDel st.cache oldest) key v, restOrder ++ [key]⟩
  else some ⟨st.max_size, dictSet st.cache key v, st.order ++ [key]⟩

/-- `TemplateCache.clear`. -/
def TemplateCache_clear {V : Type} (st : CacheSt V) : CacheSt V :=
  ⟨st.max_size, [], []⟩

/-- Insert a list of entries in order (`set` repeatedly). -/
def cacheSetAll {V : Type} (st : CacheSt V) : List (String × V) → Option (CacheSt V)
  | [] => some st
  | p :: ps =>
    match TemplateCache_set st p.1 p.2 with
    | none => none
    | some st₂ => cacheSetAll st₂ ps

/-- The invariants of claim C10: `_access_order` holds exactly the keys of
`_cache`, each exactly once, and the entry count never exceeds
`max_size`. -/
def cacheInv {V : Type} (st : CacheSt V) : Prop :=
  st.order.Nodup ∧ List.Perm st.order (st.cache.map Prod.fst) ∧
    st.cache.length ≤ st.max_size

instance {V : Type} (st : CacheSt V) : Decidable (cacheInv st) := by
  unfold cacheInv; infer_instance

/-! ## `Template` wrapper (`template.py`) -/

/-- `Template._get_cache_key`:
`f"\x7bself.name\x7d:\x7bmd5(source).hexdigest()\x7d"` — the *full* (32
character) digest of the raw source text, not the compiler's
`source_hash`. -/
def Template_get_cache_key (name source : String) : String :=
  name ++ ":" ++ md5hex source

/-! ## Concrete inputs referenced by the theorems -/

/-- The dangling end-keyword source of claim C5. -/
def endifSrc : String := "\x7b% endif %\x7d"

/-- The token stream the lexer produces for `endifSrc`. -/
def endifToks : List Token :=
  [⟨.STMT_OPEN, "\x7b%", 1, 1⟩, ⟨.STMT_CONTENT, "endif", 1, 10⟩,
   ⟨.STMT_CLOSE, "%\x7d", 1, 10⟩, ⟨.EOF, "", 1, 12⟩]

/-- The token stream a working lexer would produce for `<div></span>`
(claim C7); the parser is run on it directly because the real lexer never
finishes tokenizing that source. -/
def divSpanToks : List Token :=
  [⟨.TAG_OPEN, "<", 1, 1⟩, ⟨.TAG_NAME, "div", 1, 5⟩, ⟨.TAG_CLOSE, ">", 1, 5⟩,
   ⟨.TAG_END_OPEN, "</", 1, 7⟩, ⟨.TAG_NAME, "span", 1, 12⟩, ⟨.TAG_CLOSE, ">", 1, 12⟩,
   ⟨.EOF, "", 1, 13⟩]

/-- Does the cache key's hash component equal the stored compiled
template's `source_hash`?  `none` when compilation does not finish in the
given fuel. -/
def cacheKeyMatchesSourceHash (fuel : Nat) (source name : String) : Option Bool :=
  match compileOnce fuel source name with
  | some (.ok m) => some (Template_get_cache_key name source = name ++ ":" ++ m.source_hash)
  | _ => none

/-- The compiled metadata of the one-text-node template `"hi"` under the
name `"t"` (checked against `compileOnce` in the C9 witness). -/
def hiMeta : CompiledMeta := ⟨"t", "023bfd02d4ee", [], [], []⟩

/-! # Theorems -/

/-! ## General helper lemmas -/

theorem toHex32_length (n : Nat) : (toHex32 n).length = 32 := by
  simp [toHex32]

theorem md5hex_length (s : String) : (md5hex s).length = 32 := by
  simp [md5hex, String.length, toHex32_length]

/-! ## C1 — expression escaping and the `safe` filter -/

/-- Claim C1: the spec says the evaluated expression is HTML-escaped unless
the filter chain ends in `safe`, and that `\x7b\x7b "<b>" | safe \x7d\x7d`
renders as `<b>` verbatim.  The code computes `is_safe` *after*
`_compile_filters` rewrote the chain into a `_filters[...]` call, which
neither ends in `|safe` nor contains the substring `safe(`, so the `safe`
exemption never fires: the node compiles to an escaped append and renders
as `&lt;b&gt;`.  (The default-escaping half does hold, as the `<script>`
conjunct shows.) -/
theorem c1_safe_filter_output_still_escaped :
    compileExpressionEmit (some "\"<b>\" | safe") =
      .appendEscaped (filterCallStr "safe" "\"<b>\"") ∧
    renderExpressionNode (some "\"<b>\" | safe") = some "&lt;b&gt;" ∧
    ¬ (renderExpressionNode (some "\"<b>\" | safe") = some "<b>") ∧
    renderExpressionNode (some "\"<script>\"") = some "&lt;script&gt;" := by
  refine ⟨rfl, rfl, ?_, rfl⟩
  decide

/-! ## C2 — loop metadata -/

/-- Claim C2: the spec says each iteration exposes `index`/`first`/`last`
metadata with `index` incrementing, `first` true exactly on the first
iteration and `last` true exactly on the last.  The code emits the
initializer inside the loop body, so the metadata the children observe is
`\x7b'index': 0, 'first': True, 'last': False\x7d` on *every* iteration
(`last` is never written at all), and the dict is bound to `_loop1`, not to
the `loop` name the template's expressions reference. -/
theorem c2_loop_metadata_constant :
    parsedRootSummary 64
        "\x7b% for x in [1,2,3] %\x7d\x7b\x7b loop.first \x7d\x7d-\x7b\x7b loop.last \x7d\x7d\x7b% endfor %\x7d" =
      some [.forS "x in [1,2,3]" [.expr "loop.first", .text "-", .expr "loop.last"]] ∧
    loopBodyMetas 3 loopMetaInit = [loopMetaInit, loopMetaInit, loopMetaInit] ∧
    loopMetaInit = ⟨0, true, false⟩ ∧
    ¬ (loopVarName 1 = "loop") := by
  refine ⟨by rfl, rfl, rfl, ?_⟩
  decide

/-! ## C3 — if/elif/else dispatch -/

/-- Claim C3: the spec says exactly one branch renders, with the `else`
body when both conditions are falsy.  The parser nests the Else node
inside the Elif node, and `_compile_if` skips ELSE children when compiling
an ELIF child's body, so the emitted chain has branches `c1`/`c2` and *no*
else branch: with both conditions falsy the output is empty — it contains
`C` nowhere.  (Dispatch into the `c1` and `c2` branches does work.) -/
theorem c3_else_after_elif_dropped :
    ((firstRootNode 64 "\x7b% if c1 %\x7dA\x7b% elif c2 %\x7dB\x7b% else %\x7dC\x7b% endif %\x7d").map
        (fun n => ((compileIfStruct n).branches.map (fun b => (b.1, renderTextChildren b.2)),
                   (compileIfStruct n).elseBranch.isSome)) =
      some ([("c1", "A"), ("c2", "B")], false)) ∧
    ((firstRootNode 64 "\x7b% if c1 %\x7dA\x7b% elif c2 %\x7dB\x7b% else %\x7dC\x7b% endif %\x7d").map
        (fun n => renderIfStruct (compileIfStruct n) (fun _ => false)) = some "") ∧
    ((firstRootNode 64 "\x7b% if c1 %\x7dA\x7b% elif c2 %\x7dB\x7b% else %\x7dC\x7b% endif %\x7d").map
        (fun n => renderIfStruct (compileIfStruct n) (fun c => c == "c1")) = some "A") ∧
    ((firstRootNode 64 "\x7b% if c1 %\x7dA\x7b% elif c2 %\x7dB\x7b% else %\x7dC\x7b% endif %\x7d").map
        (fun n => renderIfStruct (compileIfStruct n) (fun c => c == "c2")) = some "B") :=
  ⟨by rfl, by rfl, by rfl, by rfl⟩

/-! ## C9 — deterministic recompilation -/

/-- Claim C9: two independent compilation runs on the same source (each
with a fresh lexer, parser and compiler, as `compileOnce` performs) yield
the same `source_hash`, `bindings` and `events`.  In this embedding the
whole pipeline is a pure function of the source text — there is no
dict-ordering or hashing nondeterminism anywhere in it — so any two runs
agree. -/
theorem c9_recompilation_deterministic (fuel : Nat) (source name : String)
    (m₁ m₂ : CompiledMeta)
    (h₁ : compileOnce fuel source name = some (.ok m₁))
    (h₂ : compileOnce fuel source name = some (.ok m₂)) :
    m₁.source_hash = m₂.source_hash ∧ m₁.bindings = m₂.bindings ∧
      m₁.events = m₂.events := by
  have h : m₁ = m₂ := by
    have h₀ := h₁.symm.trans h₂
    simp only [Option.some.injEq, Except.ok.injEq] at h₀
    exact h₀
  exact ⟨by rw [h], by rw [h], by rw [h]⟩

set_option maxRecDepth 4000 in
/-- Witness for C9 at the concrete template `"hi"`. -/
theorem c9_recompilation_deterministic_witness :
    compileOnce 32 "hi" "t" = some (.ok hiMeta) ∧
    (hiMeta.source_hash = hiMeta.source_hash ∧ hiMeta.bindings = hiMeta.bindings ∧
      hiMeta.events = hiMeta.events) :=
  ⟨by rfl, c9_recompilation_deterministic 32 "hi" "t" hiMeta hiMeta (by rfl) (by rfl)⟩

/-! ## C8 — cache key versus `source_hash` -/

set_option maxRecDepth 4000 in
/-- Claim C8, counterexample: for the template `"hello"` compiled under the
name `"template"`, the hash component of `Template._get_cache_key` is not
the stored compiled template's `source_hash`. -/
theorem c8_cache_key_counterexample :
    cacheKeyMatchesSourceHash 32 "hello" "template" = some false := by
  rfl

/-- Claim C8 as amended: the cache key is `\x7bname\x7d:\x7bh\x7d` where
`h` is the full 32-character md5 hexdigest of the *raw source text*; the
stored template's `source_hash` is instead a 12-character truncation of
the digest of the AST serialization, so the key's hash component never
equals any compiled template's `source_hash`. -/
theorem c8_cache_key_is_raw_source_digest (fuel : Nat) (name source : String)
    (ast : PyxmAST) :
    Template_get_cache_key name source = name ++ ":" ++ md5hex source ∧
    (md5hex source).length = 32 ∧
    (sourceHashOf fuel ast).length = 12 ∧
    ¬ (Template_get_cache_key name source = name ++ ":" ++ sourceHashOf fuel ast) := by
  have hsh : (sourceHashOf fuel ast).length = 12 := by
    have h := md5hex_length (serializeNodeF fuel ast.root)
    simp only [String.length] at h ⊢
    simp [sourceHashOf, h]
  refine ⟨rfl, md5hex_length source, hsh, ?_⟩
  intro h
  have hlen := congrArg String.length h
  rw [Template_get_cache_key] at hlen
  simp only [String.length_append, md5hex_length, hsh] at hlen
  omega

/-! ## C5 — the parse loop on a dangling end keyword -/

/-- Tokenizing `endifSrc` finishes in two loop iterations, with any spare
fuel. -/
theorem endifSrc_tokenizes (m : Nat) :
    PyxmLexer_tokenize (m + 2) endifSrc = some endifToks := by rfl

/-- The top-level parse loop on `endifToks` exhausts any fuel: each
iteration parses the `endif` statement, rewinds the position by the three
tokens it consumed, and returns `None`, so the loop re-enters at position
0 forever. -/
theorem endifToks_top_loop (fuel : Nat) :
    parseTopF fuel endifToks 0 [] [] = .fuelOut := by
  induction fuel with
  | zero => rfl
  | succ g ih =>
    cases g with
    | zero => rfl
    | succ h =>
      cases h with
      | zero => rfl
      | succ k =>
        have step : parseTopF (k + 1 + 1 + 1) endifToks 0 [] [] =
            parseTopF (k + 1 + 1) endifToks 0 [] [] := by rfl
        rw [step]
        exact ih

/-- Claim C5: the claim says `PyxmParser.parse` terminates on every finite
input, including a dangling top-level end keyword.  It does not: on
`\x7b% endif %\x7d` the statement sub-parser consumes the three statement
tokens, hits the end-keyword branch, rewinds `pos` by 3 and returns
`None`; the top-level loop makes no progress and never terminates — no
fuel suffices. -/
theorem c5_parse_nonterminating_on_dangling_end :
    ∀ fuel, PyxmParser_parse fuel endifSrc = .fuelOut := by
  intro fuel
  match fuel with
  | 0 => rfl
  | 1 => rfl
  | m + 2 =>
    have h : PyxmParser_parse (m + 2) endifSrc =
        (match parseTopF (m + 2) endifToks 0 [] [] with
         | PRes.fuelOut => PRes.fuelOut
         | PRes.err e => PRes.err e
         | PRes.ok (children, blocks) p =>
             PRes.ok (analyzeAST (m + 2) (rootNode children) blocks) p) := rfl
    rw [h, endifToks_top_loop]

/-! ## C7 — closing-tag mismatch -/

/-- The lexer's main loop on `<div></span>` makes no progress: the
`tag_open` branch emits a `TAG_OPEN` token but never advances past `<`
(neither `_next_token` nor `_tokenize_tag` consumes it), so every
iteration leaves the remaining input and position unchanged. -/
theorem divSpan_lex_loop (fuel : Nat) :
    ∀ (p : LexPos) (acc : List Token),
      tokenizeLoopF fuel "<div></span>".data p acc = none := by
  induction fuel with
  | zero => intro p acc; rfl
  | succ g ih =>
    intro p acc
    have step : tokenizeLoopF (g + 1) "<div></span>".data p acc =
        tokenizeLoopF g "<div></span>".data p
          (acc ++ [⟨.TAG_OPEN, "<", p.line, p.col⟩]) := by rfl
    rw [step]
    exact ih _ _

/-- Claim C7: the claim says `<div></span>` fails with a `SyntaxError`
naming both tags and the opening tag's line.  In fact (first conjunct)
tokenization of that source never terminates, so parsing never raises at
all; and even on the token stream a working lexer would produce, the
mismatch error message (second conjunct) names both tags but contains no
digit — no line number. -/
theorem c7_tag_mismatch_behavior :
    (∀ fuel, PyxmLexer_tokenize fuel "<div></span>" = none) ∧
    parseElementF 9 divSpanToks 0 =
      .err "Mismatched tags: expected </div>, got </span>" ∧
    strContains "Mismatched tags: expected </div>, got </span>" "div" = true ∧
    strContains "Mismatched tags: expected </div>, got </span>" "span" = true ∧
    ("Mismatched tags: expected </div>, got </span>".data.all
      (fun c => !c.isDigit)) = true := by
  refine ⟨fun fuel => divSpan_lex_loop fuel ⟨1, 1⟩ [], by rfl, by decide, by decide, by decide⟩

/-! ## C4 — unterminated delimiters -/

/-- If `hasPair a b` fails on a list, it fails on the tail. -/
theorem hasPair_of_cons {a b c : Char} {l : List Char}
    (h : hasPair a b (c :: l) = false) : hasPair a b l = false := by
  cases l with
  | nil => rfl
  | cons d l₂ =>
    have h₂ := h
    simp only [hasPair, Bool.or_eq_false_iff] at h₂
    exact h₂.2

/-- With no `\x7d\x7d` anywhere in the input, the expression scan consumes
everything up to end-of-input. -/
theorem scanExpr_no_close : ∀ (d : Nat) (cs : List Char) (p : LexPos),
    hasPair rbraceC rbraceC cs = false →
    scanExpr d cs p = (cs, [], advList p cs) := by
  intro d cs p
  induction d, cs, p using scanExpr.induct with
  | case1 d p => intro h; rfl
  | case2 d c p => intro h; rfl
  | case3 depth c₁ c₂ cs p hbr ih =>
    intro h
    simp only [scanExpr, if_pos hbr]
    rw [ih (hasPair_of_cons (hasPair_of_cons h))]
    rfl
  | case4 depth c₁ c₂ cs p hbr hrb hd =>
    intro h
    exfalso
    obtain ⟨h₁, h₂⟩ := hrb
    subst h₁; subst h₂
    simp [hasPair] at h
  | case5 depth c₁ c₂ cs p hbr hrb hd ih =>
    intro h
    exfalso
    obtain ⟨h₁, h₂⟩ := hrb
    subst h₁; subst h₂
    simp [hasPair] at h
  | case6 depth c₁ c₂ cs p hbr hrb ih =>
    intro h
    simp only [scanExpr, if_neg hbr, if_neg hrb]
    rw [ih (hasPair_of_cons h)]
    rfl

/-- With no closer pair anywhere in the input, the statement/comment scan
consumes everything up to end-of-input. -/
theorem scanUntilPair_no_close (a b : Char) : ∀ (cs : List Char) (p : LexPos),
    hasPair a b cs = false →
    scanUntilPair a b cs p = (cs, [], advList p cs) := by
  intro cs p
  induction cs, p using scanUntilPair.induct a b with
  | case1 p => intro h; rfl
  | case2 c p => intro h; rfl
  | case3 c₁ c₂ cs p hab =>
    intro h
    exfalso
    obtain ⟨h₁, h₂⟩ := hab
    subst h₁; subst h₂
    simp [hasPair] at h
  | case4 c₁ c₂ cs p hab ih =>
    intro h
    simp only [scanUntilPair, if_neg hab]
    rw [ih (hasPair_of_cons h)]
    rfl

/-- Claim C4, counterexample: the source `\x7b\x7b x` opens an expression
delimiter and never closes it, yet lexing does not fail — it returns a
complete token stream (with a synthetic `EXPR_CLOSE`) ending in `EOF`.
There is no `LexError` anywhere in the lexer. -/
theorem c4_unterminated_counterexample :
    (PyxmLexer_tokenize 4 "\x7b\x7b x").map (List.map tokKV) =
      some [(.EXPR_OPEN, "\x7b\x7b"), (.EXPR_CONTENT, "x"),
            (.EXPR_CLOSE, "\x7d\x7d"), (.EOF, "")] := by
  rfl

/-- Claim C4 as amended: on a source that opens an expression, statement or
comment delimiter and never closes it, the lexer does not fail; it emits
the opening token, the remaining text as the content token (stripped for
expressions and statements, verbatim for comments), a synthetic closing
token, and the `EOF` sentinel. -/
theorem c4_unterminated_delimiter_lexes (r₁ r₂ r₃ : List Char)
    (h₁ : hasPair rbraceC rbraceC r₁ = false)
    (h₂ : hasPair pctC rbraceC r₂ = false)
    (h₃ : hasPair hashC rbraceC r₃ = false) :
    (PyxmLexer_tokenize 2 ⟨lbraceC :: lbraceC :: r₁⟩).map (List.map tokKV) =
      some [(.EXPR_OPEN, "\x7b\x7b"), (.EXPR_CONTENT, ⟨pyStripL r₁⟩),
            (.EXPR_CLOSE, "\x7d\x7d"), (.EOF, "")] ∧
    (PyxmLexer_tokenize 2 ⟨lbraceC :: pctC :: r₂⟩).map (List.map tokKV) =
      some [(.STMT_OPEN, "\x7b%"), (.STMT_CONTENT, ⟨pyStripL r₂⟩),
            (.STMT_CLOSE, "%\x7d"), (.EOF, "")] ∧
    (PyxmLexer_tokenize 2 ⟨lbraceC :: hashC :: r₃⟩).map (List.map tokKV) =
      some [(.COMMENT_OPEN, "\x7b#"), (.COMMENT_CONTENT, ⟨r₃⟩),
            (.COMMENT_CLOSE, "#\x7d"), (.EOF, "")] := by
  refine ⟨?_, ?_, ?_⟩
  · have key := scanExpr_no_close 1 r₁ (advChar (advChar ⟨1, 1⟩ lbraceC) lbraceC) h₁
    simp +decide only [PyxmLexer_tokenize, tokenizeLoopF, lexNextToken,
      tokenizeExpressionTok, hasPrefixL, List.drop, List.take, advList, List.foldl,
      key, tokKV, List.map, Option.map, String.data, List.append, List.nil_append,
      List.cons_append]
  · have key := scanUntilPair_no_close pctC rbraceC r₂
      (advChar (advChar ⟨1, 1⟩ lbraceC) pctC) h₂
    simp +decide only [PyxmLexer_tokenize, tokenizeLoopF, lexNextToken,
      tokenizeStatementTok, hasPrefixL, List.drop, List.take, advList, List.foldl,
      key, tokKV, List.map, Option.map, String.data, List.append, List.nil_append,
      List.cons_append]
  · have key := scanUntilPair_no_close hashC rbraceC r₃
      (advChar (advChar ⟨1, 1⟩ lbraceC) hashC) h₃
    simp +decide only [PyxmLexer_tokenize, tokenizeLoopF, lexNextToken,
      tokenizeCommentTok, hasPrefixL, List.drop, List.take, advList, List.foldl,
      key, tokKV, List.map, Option.map, String.data, List.append, List.nil_append,
      List.cons_append]

/-- Witness for the amended C4 at the concrete unterminated sources
`\x7b\x7b x`, `\x7b% if` and `\x7b# c`. -/
theorem c4_unterminated_delimiter_lexes_witness :
    (hasPair rbraceC rbraceC " x".data = false ∧
     hasPair pctC rbraceC " if".data = false ∧
     hasPair hashC rbraceC " c".data = false) ∧
    ((PyxmLexer_tokenize 2 ⟨lbraceC :: lbraceC :: " x".data⟩).map (List.map tokKV) =
      some [(.EXPR_OPEN, "\x7b\x7b"), (.EXPR_CONTENT, ⟨pyStripL " x".data⟩),
            (.EXPR_CLOSE, "\x7d\x7d"), (.EOF, "")] ∧
     (PyxmLexer_tokenize 2 ⟨lbraceC :: pctC :: " if".data⟩).map (List.map tokKV) =
      some [(.STMT_OPEN, "\x7b%"), (.STMT_CONTENT, ⟨pyStripL " if".data⟩),
            (.STMT_CLOSE, "%\x7d"), (.EOF, "")] ∧
     (PyxmLexer_tokenize 2 ⟨lbraceC :: hashC :: " c".data⟩).map (List.map tokKV) =
      some [(.COMMENT_OPEN, "\x7b#"), (.COMMENT_CONTENT, ⟨" c".data⟩),
            (.COMMENT_CLOSE, "#\x7d"), (.EOF, "")]) :=
  ⟨by decide,
   c4_unterminated_delimiter_lexes " x".data " if".data " c".data
     (by decide) (by decide) (by decide)⟩

/-! ## Cache helper lemmas (shared by C6 and C10) -/

theorem dictContains_iff {V : Type} (d : List (String × V)) (k : String) :
    dictContains d k = true ↔ k ∈ d.map Prod.fst := by
  simp [dictContains, List.any_eq_true, List.mem_map]

theorem dictContains_false_iff {V : Type} (d : List (String × V)) (k : String) :
    dictContains d k = false ↔ k ∉ d.map Prod.fst := by
  rw [← Bool.not_eq_true, not_iff_not]
  exact dictContains_iff d k

theorem dictSet_keys_of_contains {V : Type} {d : List (String × V)} {k : String}
    (v : V) (h : dictContains d k = true) :
    (dictSet d k v).map Prod.fst = d.map Prod.fst := by
  simp only [dictSet, h, if_true, List.map_map]
  apply List.map_congr_left
  intro p _
  by_cases hpk : p.1 = k
  · simp [Function.comp, hpk]
  · simp [Function.comp, hpk]

theorem dictSet_of_not_contains {V : Type} {d : List (String × V)} {k : String}
    (v : V) (h : dictContains d k = false) :
    dictSet d k v = d ++ [(k, v)] := by
  simp [dictSet, h]

theorem map_fst_dictDel {V : Type} (d : List (String × V)) (k : String) :
    (dictDel d k).map Prod.fst = (d.map Prod.fst).filter (fun x => ¬ x = k) := by
  induction d with
  | nil => rfl
  | cons p d ih =>
    by_cases hp : p.1 = k
    · simp [dictDel, List.filter, hp, ih]
      simp [dictDel] at ih
      exact ih
    · simp [dictDel, List.filter, hp] at ih ⊢
      exact ih

theorem filter_ne_of_not_mem {l : List String} {k : String} (h : k ∉ l) :
    l.filter (fun x => ¬ x = k) = l := by
  rw [List.filter_eq_self]
  intro a ha
  simp only [decide_eq_true_eq]
  intro he
  exact h (he ▸ ha)

theorem dictGet_of_mem {V : Type} {d : List (String × V)}
    (hnd : (d.map Prod.fst).Nodup) {p : String × V} (hp : p ∈ d) :
    dictGet d p.1 = some p.2 := by
  induction d with
  | nil => cases hp
  | cons q d ih =>
    rcases List.mem_cons.mp hp with rfl | hp₂
    · simp [dictGet, List.find?]
    · have hnd₂ := List.nodup_cons.mp hnd
      have hq : ¬ q.1 = p.1 := by
        intro he
        exact hnd₂.1 (he ▸ List.mem_map_of_mem Prod.fst hp₂)
      have hstep : dictGet (q :: d) p.1 = dictGet d p.1 := by
        simp [dictGet, List.find?, hq]
      rw [hstep]
      exact ih hnd₂.2 hp₂

/-! ## C10 — cache invariants -/

theorem cacheInv_mk {V : Type} {ms : Nat} {c : List (String × V)} {o : List String}
    (h1 : o.Nodup) (h2 : o.Perm (c.map Prod.fst)) (h3 : c.length ≤ ms) :
    cacheInv (⟨ms, c, o⟩ : CacheSt V) := ⟨h1, h2, h3⟩

theorem erase_append_self_nodup {order : List String} {key : String}
    (hnd : order.Nodup) : (order.erase key ++ [key]).Nodup := by
  rw [List.nodup_append]
  refine ⟨hnd.erase key, List.nodup_singleton key, ?_⟩
  intro a ha hb
  rw [List.mem_singleton] at hb
  subst hb
  exact ((List.Nodup.mem_erase_iff hnd).mp ha).1 rfl

theorem erase_append_self_perm {order : List String} {key : String}
    (hmem : key ∈ order) : (order.erase key ++ [key]).Perm order :=
  (List.perm_append_singleton key _).trans (List.perm_cons_erase hmem).symm

/-- Claim C10: every `TemplateCache` operation preserves the invariants
that `_access_order` contains exactly the keys of `_cache` (each once) and
that the entry count never exceeds `max_size`.  The `set` conclusion is
stated over the successful result; the only failing case (`max_size = 0`,
where `pop(0)` raises `IndexError`) leaves the Python object unchanged. -/
theorem c10_cache_operations_preserve_invariants {V : Type} (st : CacheSt V)
    (key : String) (v : V) (h : cacheInv st) :
    cacheInv (TemplateCache_get st key).2 ∧
    (∀ st₂, TemplateCache_set st key v = some st₂ → cacheInv st₂) ∧
    cacheInv (TemplateCache_clear st) := by
  obtain ⟨hnd, hperm, hlen⟩ := h
  have hcachelen : st.cache.length = (st.cache.map Prod.fst).length :=
    (List.length_map st.cache Prod.fst).symm
  refine ⟨?_, ?_, ?_⟩
  · by_cases hc : dictContains st.cache key = true
    · have hmem : key ∈ st.order := hperm.mem_iff.mpr ((dictContains_iff _ _).mp hc)
      simp only [TemplateCache_get, hc, if_true]
      exact cacheInv_mk (erase_append_self_nodup hnd)
        ((erase_append_self_perm hmem).trans hperm) hlen
    · have hc₂ : dictContains st.cache key = false := Bool.eq_false_iff.mpr hc
      simp only [TemplateCache_get, hc₂, Bool.false_eq_true, if_false]
      exact ⟨hnd, hperm, hlen⟩
  · intro st₂ hset
    by_cases hc : dictContains st.cache key = true
    · have hmem : key ∈ st.order := hperm.mem_iff.mpr ((dictContains_iff _ _).mp hc)
      simp only [TemplateCache_set, hc, if_true, Option.some.injEq] at hset
      subst hset
      refine cacheInv_mk (erase_append_self_nodup hnd) ?_ ?_
      · rw [dictSet_keys_of_contains v hc]
        exact (erase_append_self_perm hmem).trans hperm
      · have hl : (dictSet st.cache key v).length = st.cache.length := by
          rw [hcachelen, ← dictSet_keys_of_contains v hc, List.length_map]
        rw [hl]
        exact hlen
    · have hc₂ : dictContains st.cache key = false := Bool.eq_false_iff.mpr hc
      have hknotin : key ∉ st.cache.map Prod.fst := (dictContains_false_iff _ _).mp hc₂
      have hknotorder : key ∉ st.order := fun hk => hknotin (hperm.mem_iff.mp hk)
      by_cases hfull : st.cache.length ≥ st.max_size
      · cases horder : st.order with
        | nil =>
          simp only [TemplateCache_set, hc₂, Bool.false_eq_true, if_false,
            if_pos hfull, horder] at hset
          cases hset
        | cons oldest rest =>
          simp only [TemplateCache_set, hc₂, Bool.false_eq_true, if_false,
            if_pos hfull, horder, Option.some.injEq] at hset
          subst hset
          rw [horder] at hnd hperm hknotorder
          have hnd₂ := List.nodup_cons.mp hnd
          have holdkeys : (dictDel st.cache oldest).map Prod.fst =
              (st.cache.map Prod.fst).filter (fun x => ¬ x = oldest) :=
            map_fst_dictDel st.cache oldest
          have hfilterperm :
              ((st.cache.map Prod.fst).filter (fun x => ¬ x = oldest)).Perm rest := by
            have h₁ := (hperm.symm.filter (fun x => ¬ x = oldest))
            have h₂ : (oldest :: rest).filter (fun x => ¬ x = oldest) =
                rest.filter (fun x => ¬ x = oldest) := by simp
            rw [h₂, filter_ne_of_not_mem hnd₂.1] at h₁
            exact h₁
          have hkeynotdel : dictContains (dictDel st.cache oldest) key = false := by
            rw [dictContains_false_iff, holdkeys]
            intro hk
            exact hknotin (List.mem_of_mem_filter hk)
          rw [dictSet_of_not_contains v hkeynotdel]
          refine cacheInv_mk ?_ ?_ ?_
          · rw [List.nodup_append]
            refine ⟨hnd₂.2, List.nodup_singleton key, ?_⟩
            intro a ha hb
            rw [List.mem_singleton] at hb
            subst hb
            exact hknotorder (List.mem_cons_of_mem oldest ha)
          · have hkeysnew : (dictDel st.cache oldest ++ [(key, v)]).map Prod.fst =
                (dictDel st.cache oldest).map Prod.fst ++ [key] := by simp
            rw [hkeysnew, holdkeys]
            exact List.Perm.append_right [key] hfilterperm.symm
          · have hlen₂ : (dictDel st.cache oldest).length = rest.length := by
              have h₃ := hfilterperm.length_eq
              rw [← holdkeys] at h₃
              rw [← h₃, List.length_map]
            have hordlen : st.cache.length = rest.length + 1 := by
              rw [hcachelen, ← hperm.length_eq, List.length_cons]
            simp only [List.length_append, hlen₂, List.length_cons, List.length_nil]
            omega
      · simp only [TemplateCache_set, hc₂, Bool.false_eq_true, if_false,
          if_neg hfull, Option.some.injEq] at hset
        subst hset
        rw [dictSet_of_not_contains v hc₂]
        refine cacheInv_mk ?_ ?_ ?_
        · rw [List.nodup_append]
          refine ⟨hnd, List.nodup_singleton key, ?_⟩
          intro a ha hb
          rw [List.mem_singleton] at hb
          subst hb
          exact hknotorder ha
        · have hkeysnew : (st.cache ++ [(key, v)]).map Prod.fst =
              st.cache.map Prod.fst ++ [key] := by simp
          rw [hkeysnew]
          exact List.Perm.append_right [key] hperm
        · simp only [List.length_append, List.length_cons, List.length_nil]
          omega
  · exact ⟨List.nodup_nil, List.Perm.refl [], Nat.zero_le _⟩

/-! ## C6 — LRU behavior -/

theorem dictDel_cons_self {V : Type} {q : String × V} {d : List (String × V)}
    (h : q.1 ∉ d.map Prod.fst) : dictDel (q :: d) q.1 = d := by
  simp [dictDel, List.filter_eq_self]
  intro a b ha he
  exact h (he ▸ List.mem_map_of_mem Prod.fst ha)

/-- Filling a full-after-one-more-insert cache: inserting fresh entries
`ps` into a cache whose dict is `d` (with `order` in sync) when
`d.length + ps.length = N + 1` evicts exactly the oldest entry `d.head` at
the final insert. -/
theorem cacheSetAll_overflow {V : Type} (N : Nat) :
    ∀ (ps d : List (String × V)),
      ((d ++ ps).map Prod.fst).Nodup →
      d.length + ps.length = N + 1 →
      d ≠ [] → ps ≠ [] →
      cacheSetAll (⟨N, d, d.map Prod.fst⟩ : CacheSt V) ps =
        some ⟨N, d.tail ++ ps, (d.tail ++ ps).map Prod.fst⟩ := by
  intro ps
  induction ps with
  | nil => intro d _ _ _ hps; exact absurd rfl hps
  | cons p ps ih =>
    intro d hnd hlen hd _
    have hmap : (d ++ p :: ps).map Prod.fst =
        d.map Prod.fst ++ p.1 :: ps.map Prod.fst := by simp
    rw [hmap] at hnd
    have hsplit := List.nodup_append.mp hnd
    have hp1notd : p.1 ∉ d.map Prod.fst := fun hm =>
      (hsplit.2.2 hm) (List.mem_cons_self _ _)
    have hcont : dictContains d p.1 = false := (dictContains_false_iff _ _).mpr hp1notd
    cases hps : ps with
    | nil =>
      subst hps
      have hdlen : d.length = N := by simpa using hlen
      cases d with
      | nil => exact absurd rfl hd
      | cons q d₂ =>
        have hq1 : q.1 ∉ d₂.map Prod.fst := by
          have := (List.nodup_append.mp hnd).1
          rw [List.map_cons, List.nodup_cons] at this
          exact this.1
        have hfull : (q :: d₂).length ≥ N := le_of_eq hdlen.symm
        simp only [cacheSetAll, TemplateCache_set, hcont, Bool.false_eq_true,
          if_false, List.map_cons, if_pos hfull]
        rw [dictDel_cons_self hq1]
        have hpnotd₂ : dictContains d₂ p.1 = false := by
          rw [dictContains_false_iff]
          intro hm
          exact hp1notd (by simp [hm])
        rw [dictSet_of_not_contains p.2 hpnotd₂]
        simp
    | cons p₂ ps₂ =>
      have hnotfull : ¬ d.length ≥ N := by
        subst hps
        simp only [List.length_cons] at hlen
        omega
      have hsetstep : TemplateCache_set (⟨N, d, d.map Prod.fst⟩ : CacheSt V) p.1 p.2 =
          some ⟨N, d ++ [(p.1, p.2)], (d ++ [(p.1, p.2)]).map Prod.fst⟩ := by
        simp only [TemplateCache_set, hcont, Bool.false_eq_true, if_false, if_neg hnotfull]
        rw [dictSet_of_not_contains p.2 hcont]
        simp
      subst hps
      have hone : cacheSetAll (⟨N, d, d.map Prod.fst⟩ : CacheSt V) (p :: p₂ :: ps₂) =
          (match TemplateCache_set (⟨N, d, d.map Prod.fst⟩ : CacheSt V) p.1 p.2 with
           | none => none
           | some st₂ => cacheSetAll st₂ (p₂ :: ps₂)) := rfl
      rw [hone, hsetstep]
      dsimp only
      have hstep := ih (d ++ [(p.1, p.2)])
        (by
          have hassoc : (d ++ [(p.1, p.2)]) ++ (p₂ :: ps₂) = d ++ (p.1, p.2) :: p₂ :: ps₂ := by
            simp
          rw [hassoc]
          have he : ((p.1, p.2) : String × V) = p := rfl
          rw [he]
          rw [← hmap] at hnd
          exact hnd)
        (by simp only [List.length_append, List.length_cons, List.length_nil] at hlen ⊢; omega)
        (by simp)
        (List.cons_ne_nil _ _)
      rw [hstep]
      have htail : (d ++ [(p.1, p.2)]).tail = d.tail ++ [p] := by
        cases d with
        | nil => exact absurd rfl hd
        | cons q d₂ => rfl
      rw [htail]
      simp

/-- The promote-then-evict scenario at capacity 2: insert `a` and `b`, get
`a` (promoting it to most recently used), insert `c` (evicting `b`, the
least recently used, rather than `a`), then probe both. -/
def c6PromoteScenario : Option (Option Nat × Option Nat) :=
  (cacheSetAll (emptyCache Nat 2) [("a", 1), ("b", 2)]).bind (fun s₂ =>
    (TemplateCache_set (TemplateCache_get s₂ "a").2 "c" 3).map (fun s₃ =>
      ((TemplateCache_get s₃ "a").1, (TemplateCache_get s₃ "b").1)))

/-- Claim C6: `TemplateCache` is a fixed-capacity LRU.  Inserting `N + 1`
distinct entries into an empty capacity-`N` cache leaves exactly the last
`N` entries: a `get` on the first key misses while `get`s on the other `N`
keys return their values; and (last conjunct) a `get` promotes its key so
that a subsequent at-capacity `set` evicts the least-recently-*used* entry
rather than the least-recently-inserted one. -/
theorem c6_cache_lru_eviction {V : Type} (N : Nat) (p₀ : String × V)
    (ps : List (String × V)) (hN : 1 ≤ N) (hlen : ps.length = N)
    (hnd : ((p₀ :: ps).map Prod.fst).Nodup) :
    cacheSetAll (emptyCache V N) (p₀ :: ps) = some ⟨N, ps, ps.map Prod.fst⟩ ∧
    (TemplateCache_get (⟨N, ps, ps.map Prod.fst⟩ : CacheSt V) p₀.1).1 = none ∧
    (∀ p ∈ ps, (TemplateCache_get (⟨N, ps, ps.map Prod.fst⟩ : CacheSt V) p.1).1 = some p.2) ∧
    c6PromoteScenario = some (some 1, none) := by
  have hnd₂ : (p₀.1 :: ps.map Prod.fst).Nodup := by
    rw [List.map_cons] at hnd; exact hnd
  have hnc := List.nodup_cons.mp hnd₂
  refine ⟨?_, ?_, ?_, by rfl⟩
  · have hcont : dictContains ([] : List (String × V)) p₀.1 = false := rfl
    have hnotfull : ¬ (([] : List (String × V)).length ≥ N) := by simp; omega
    simp only [cacheSetAll, emptyCache, TemplateCache_set, hcont, Bool.false_eq_true,
      if_false, if_neg hnotfull]
    have h₁ : dictSet ([] : List (String × V)) p₀.1 p₀.2 = [p₀] := rfl
    rw [h₁]
    have h₂ : ([] : List String) ++ [p₀.1] = ([p₀] : List (String × V)).map Prod.fst := by simp
    rw [h₂]
    have hstep := cacheSetAll_overflow N ps [p₀]
      (by simpa using hnd)
      (by simp [hlen]; omega)
      (List.cons_ne_nil _ _)
      (by intro he; rw [he] at hlen; simp at hlen; omega)
    rw [hstep]
    simp
  · have hcont : dictContains ps p₀.1 = false := by
      rw [dictContains_false_iff]
      exact hnc.1
    simp [TemplateCache_get, hcont]
  · intro p hp
    have hcont : dictContains ps p.1 = true :=
      (dictContains_iff _ _).mpr (List.mem_map_of_mem Prod.fst hp)
    simp only [TemplateCache_get, hcont, if_true]
    exact dictGet_of_mem hnc.2 hp

/-- Witness for C6 at capacity 2 with entries `x`, `y`, `z`. -/
theorem c6_cache_lru_eviction_witness :
    (1 ≤ 2 ∧ ([("y", 20), ("z", 30)] : List (String × Nat)).length = 2 ∧
      ((("x", 10) :: [("y", 20), ("z", 30)] : List (String × Nat)).map Prod.fst).Nodup) ∧
    (cacheSetAll (emptyCache Nat 2) (("x", 10) :: [("y", 20), ("z", 30)]) =
        some ⟨2, [("y", 20), ("z", 30)], [("y", 20), ("z", 30)].map Prod.fst⟩ ∧
      (TemplateCache_get (⟨2, [("y", 20), ("z", 30)],
          [("y", 20), ("z", 30)].map Prod.fst⟩ : CacheSt Nat) "x").1 = none ∧
      (∀ p ∈ ([("y", 20), ("z", 30)] : List (String × Nat)),
        (TemplateCache_get (⟨2, [("y", 20), ("z", 30)],
          [("y", 20), ("z", 30)].map Prod.fst⟩ : CacheSt Nat) p.1).1 = some p.2) ∧
      c6PromoteScenario = some (some 1, none)) :=
  ⟨⟨by decide, by decide, by decide⟩,
   c6_cache_lru_eviction 2 ("x", 10) [("y", 20), ("z", 30)]
     (by decide) (by decide) (by decide)⟩

/-- Witness for C10 on a concrete one-entry cache of capacity 2. -/
theorem c10_cache_operations_preserve_invariants_witness :
    cacheInv (⟨2, [("a", 1)], ["a"]⟩ : CacheSt Nat) ∧
    (cacheInv (TemplateCache_get (⟨2, [("a", 1)], ["a"]⟩ : CacheSt Nat) "b").2 ∧
     (∀ st₂, TemplateCache_set (⟨2, [("a", 1)], ["a"]⟩ : CacheSt Nat) "b" 2 = some st₂ →
        cacheInv st₂) ∧
     cacheInv (TemplateCache_clear (⟨2, [("a", 1)], ["a"]⟩ : CacheSt Nat))) :=
  ⟨by decide, c10_cache_operations_preserve_invariants _ "b" 2 (by decide)⟩

end NexaWeb
